import Mathlib

/-!
# ArtoValley client: movement, animation selection and state synchronisation

A shallow embedding of `static/client.js`.  Numbers are exact rationals.  The
module-level variables of the script are the fields of `Client`; every handler
is a function from `Client` to `Client`.  `Date.now()` readings and the JSON
messages are explicit arguments.  Rendering, audio playback, the camera and the
animation mixer are not part of the state.
-/

namespace ArtoValley

/-! ## Configuration (client.js lines 9-18) -/

def WALK_SPEED : ℚ := 1 / 2
def RUN_SPEED : ℚ := 9 / 10
def JUMP_FORCE : ℚ := 3 / 10
def GRAVITY : ℚ := -(3 / 200)
def GROUND_HEIGHT : ℚ := 1
def SEND_RATE : ℤ := 100

/-- The value `WebSocket.OPEN` of `readyState`. -/
def WS_OPEN : ℕ := 1

/-! ## The parts of three.js the movement code calls -/

/-- The three library functions used by the movement code that have no rational
closed form, `Math.sqrt`, `Math.sin` and `Math.cos`, taken as parameters. -/
structure MathFns where
  sqrt : ℚ → ℚ
  sin : ℚ → ℚ
  cos : ℚ → ℚ

structure Vector3 where
  x : ℚ
  y : ℚ
  z : ℚ
deriving DecidableEq

structure Quaternion where
  x : ℚ
  y : ℚ
  z : ℚ
  w : ℚ
deriving DecidableEq

def RESPAWN_POSITION : Vector3 := ⟨200, GROUND_HEIGHT, 0⟩

namespace Vector3

/-- `Vector3.add`. -/
def add (a b : Vector3) : Vector3 := ⟨a.x + b.x, a.y + b.y, a.z + b.z⟩

/-- `Vector3.multiplyScalar`. -/
def multiplyScalar (a : Vector3) (s : ℚ) : Vector3 := ⟨a.x * s, a.y * s, a.z * s⟩

/-- `Vector3.lengthSq`. -/
def lengthSq (a : Vector3) : ℚ := a.x * a.x + a.y * a.y + a.z * a.z

/-- `Vector3.length`: `Math.sqrt(x*x + y*y + z*z)`. -/
def length (M : MathFns) (a : Vector3) : ℚ := M.sqrt a.lengthSq

/-- `Vector3.normalize`: `divideScalar(length() || 1)`, where `divideScalar(s)`
is `multiplyScalar(1 / s)`. -/
def normalize (M : MathFns) (a : Vector3) : Vector3 :=
  a.multiplyScalar (1 / (if a.length M = 0 then 1 else a.length M))

/-- `Vector3.applyQuaternion`. -/
def applyQuaternion (v : Vector3) (q : Quaternion) : Vector3 :=
  let tx := 2 * (q.y * v.z - q.z * v.y)
  let ty := 2 * (q.z * v.x - q.x * v.z)
  let tz := 2 * (q.x * v.y - q.y * v.x)
  ⟨v.x + q.w * tx + q.y * tz - q.z * ty,
   v.y + q.w * ty + q.z * tx - q.x * tz,
   v.z + q.w * tz + q.x * ty - q.y * tx⟩

end Vector3

/-- `new Quaternion().setFromEuler(new Euler(0, yaw, 0, 'YXZ'))`.  The half
angles of the x and z rotations are `0`, whose sine is `0` and cosine `1`, so
the products of the library formula reduce to `(0, sin(yaw/2), 0, cos(yaw/2))`. -/
def quaternionFromYaw (M : MathFns) (yaw : ℚ) : Quaternion :=
  ⟨0, M.sin (yaw / 2), 0, M.cos (yaw / 2)⟩

/-! ## Data model -/

/-- The values an id variable can hold: `undefined` (field absent), `null`, or a
string. -/
inductive IdVal where
  | undefined
  | null
  | str (s : String)
deriving DecidableEq

namespace IdVal

/-- JavaScript truthiness: `undefined`, `null` and the empty string are falsy. -/
def truthy : IdVal → Bool
  | str s => s != ""
  | _ => false

/-- The property key an id is converted to in `otherPlayers[id]`. -/
def toKey : IdVal → String
  | undefined => "undefined"
  | null => "null"
  | str s => s

end IdVal

/-- An entry of `otherPlayers`, with the fields the handlers read: the
position and quaternion of `model`, `currentState`, and the names in `actions`. -/
structure Peer where
  position : Vector3
  quaternion : Quaternion
  currentState : String
  actions : List String
deriving DecidableEq

/-- The object serialised by `sendPlayerState`. -/
structure OutMessage where
  type : String
  position : Vector3
  rotation : Quaternion
  animationState : String
deriving DecidableEq

/-- A player record as carried by `initialState`, `playerJoined` and
`updateState` messages. -/
structure PlayerData where
  id : IdVal
  position : Option Vector3
  rotation : Option Quaternion
  animationState : Option String
deriving DecidableEq

/-- A parsed inbound message, by its `type` field. -/
inductive Message where
  | yourId (id : IdVal)
  | initialState (yourId : IdVal) (players : List PlayerData)
  | playerJoined (p : PlayerData)
  | playerLeft (id : IdVal)
  | updateState (p : PlayerData)
  | unknown (type : String) (id : IdVal)

/-- The module-level variables of client.js (lines 29-41).  `position` and
`rotationY` are `player.position` and `player.rotation.y`; `actions` holds the
names for which `actions[name]` is defined; `websocket` is `none` before
`connectWebSocket` and otherwise the socket's `readyState`; `sent` records each
string handed to `websocket.send` with the clock reading of that call, oldest
first.  `player` is created by `init` before any handler is registered, so the
`if (!player) return` guards of the handlers never fire. -/
structure Client where
  position : Vector3
  rotationY : ℚ
  moveForward : Bool
  moveBackward : Bool
  moveLeft : Bool
  moveRight : Bool
  isRunning : Bool
  isJumping : Bool
  isThirdPerson : Bool
  isAudioInitialized : Bool
  websocket : Option ℕ
  localPlayerId : IdVal
  otherPlayers : List (String × Peer)
  lastSendTime : ℤ
  currentActionName : String
  verticalVelocity : ℚ
  isGrounded : Bool
  actions : List String
  sent : List (ℤ × OutMessage)

/-- The state when `animate` and `connectWebSocket` first run: `init` has
placed the player at `RESPAWN_POSITION` and `loadPlayerModel` has resolved,
which it only does with the three named actions found. -/
def initial : Client :=
  { position := RESPAWN_POSITION, rotationY := 0,
    moveForward := false, moveBackward := false, moveLeft := false,
    moveRight := false, isRunning := false, isJumping := false,
    isThirdPerson := true, isAudioInitialized := false,
    websocket := none, localPlayerId := IdVal.null, otherPlayers := [],
    lastSendTime := 0, currentActionName := "Idle", verticalVelocity := 0,
    isGrounded := true, actions := ["Idle", "Walk", "Run"], sent := [] }

/-! ## Outbound state (client.js lines 371-386) -/

/-- Lines 377-384: the `state` object.  `player.quaternion` is the quaternion
of the rotation `(0, rotation.y, 0)`. -/
def playerState (M : MathFns) (c : Client) : OutMessage :=
  { type := "updateState", position := c.position,
    rotation := quaternionFromYaw M c.rotationY,
    animationState := c.currentActionName }

/-- `sendPlayerState`, with `now` the value of `Date.now()`. -/
def sendPlayerState (M : MathFns) (now : ℤ) (c : Client) : Client :=
  if c.websocket ≠ some WS_OPEN ∨ c.localPlayerId.truthy = false then c
  else if now - c.lastSendTime < SEND_RATE then c
  else { c with lastSendTime := now, sent := c.sent ++ [(now, playerState M c)] }

/-! ## Player actions and key handlers (client.js lines 394-444) -/

/-- `respawnPlayer`.  The pointer-lock toggle and the camera update touch no
variable of `Client`. -/
def respawnPlayer (M : MathFns) (now : ℤ) (c : Client) : Client :=
  sendPlayerState M now { c with position := RESPAWN_POSITION, lastSendTime := 0 }

/-- `onKeyDown`, by `event.code`; `now` is read only on the respawn path. -/
def onKeyDown (M : MathFns) (code : String) (now : ℤ) (c : Client) : Client :=
  if code = "ArrowUp" ∨ code = "KeyW" then
    { c with isAudioInitialized := true, moveForward := true }
  else if code = "ArrowLeft" ∨ code = "KeyA" then { c with moveLeft := true }
  else if code = "ArrowDown" ∨ code = "KeyS" then { c with moveBackward := true }
  else if code = "ArrowRight" ∨ code = "KeyD" then { c with moveRight := true }
  else if code = "ShiftLeft" ∨ code = "ShiftRight" then { c with isRunning := true }
  else if code = "Space" then
    if c.isGrounded then
      { c with isJumping := true, verticalVelocity := JUMP_FORCE,
               isGrounded := false, isAudioInitialized := true }
    else c
  else if code = "KeyR" then respawnPlayer M now c
  else if code = "KeyC" then { c with isThirdPerson := !c.isThirdPerson }
  else c

/-- `onKeyUp`. -/
def onKeyUp (code : String) (c : Client) : Client :=
  if code = "ArrowUp" ∨ code = "KeyW" then { c with moveForward := false }
  else if code = "ArrowLeft" ∨ code = "KeyA" then { c with moveLeft := false }
  else if code = "ArrowDown" ∨ code = "KeyS" then { c with moveBackward := false }
  else if code = "ArrowRight" ∨ code = "KeyD" then { c with moveRight := false }
  else if code = "ShiftLeft" ∨ code = "ShiftRight" then { c with isRunning := false }
  else c

/-! ## The per-frame update (client.js lines 490-558) -/

/-- Lines 499-502: the direction accumulated from the four movement flags. -/
def inputDirection (c : Client) : Vector3 :=
  let d0 : Vector3 := ⟨0, 0, 0⟩
  let d1 : Vector3 := if c.moveForward then { d0 with z := d0.z - 1 } else d0
  let d2 : Vector3 := if c.moveBackward then { d1 with z := d1.z + 1 } else d1
  let d3 : Vector3 := if c.moveLeft then { d2 with x := d2.x - 1 } else d2
  if c.moveRight then { d3 with x := d3.x + 1 } else d3

/-- Lines 504-511: the value of `direction` after the movement block.  The
vector is normalised, rotated and scaled in place when its length is positive. -/
def movedDirection (M : MathFns) (c : Client) : Vector3 :=
  let speed := if c.isRunning then RUN_SPEED else WALK_SPEED
  let direction := inputDirection c
  if 0 < direction.length M then
    ((direction.normalize M).applyQuaternion
      (quaternionFromYaw M c.rotationY)).multiplyScalar speed
  else direction

/-- Lines 493-511: the horizontal move. -/
def applyMovement (M : MathFns) (c : Client) : Client :=
  if 0 < (inputDirection c).length M then
    { c with position := c.position.add (movedDirection M c) }
  else c

/-- Lines 513-534: jump and gravity. -/
def applyJump (c : Client) : Client :=
  if c.isJumping then
    let y := c.position.y + c.verticalVelocity
    let v := c.verticalVelocity + GRAVITY
    if y ≤ GROUND_HEIGHT then
      { c with position := { c.position with y := GROUND_HEIGHT },
               isJumping := false, verticalVelocity := 0, isGrounded := true }
    else
      { c with position := { c.position with y := y }, verticalVelocity := v }
  else if c.position.y > GROUND_HEIGHT then
    let y := c.position.y + c.verticalVelocity
    let v := c.verticalVelocity + GRAVITY
    if y ≤ GROUND_HEIGHT then
      { c with position := { c.position with y := GROUND_HEIGHT },
               verticalVelocity := 0, isGrounded := true }
    else
      { c with position := { c.position with y := y }, verticalVelocity := v }
  else c

/-- Lines 537-545: `newActionName`, from the state after the jump block and the
value `direction` has at that point. -/
def newActionName (M : MathFns) (direction : Vector3) (c : Client) : String :=
  if c.isJumping ∨ c.position.y > GROUND_HEIGHT then "Idle"
  else if 0 < direction.length M then (if c.isRunning then "Run" else "Walk")
  else "Idle"

/-- Lines 547-555: the switch to `newActionName` when it differs from the
current name and `actions` has it. -/
def applyAnimation (M : MathFns) (direction : Vector3) (c : Client) : Client :=
  let name := newActionName M direction c
  if c.currentActionName ≠ name ∧ name ∈ c.actions then
    { c with currentActionName := name }
  else c

/-- `updatePlayerMovementAndAnimation(delta)`.  `delta` only advances the
animation mixer. -/
def updatePlayerMovementAndAnimation (M : MathFns) (_delta : ℚ) (c : Client) : Client :=
  applyAnimation M (movedDirection M c) (applyJump (applyMovement M c))

/-- `animate`: one frame.  `delta` is `clock.getDelta()` and `now` the value
`Date.now()` has inside `sendPlayerState`.  The camera update, the peers'
mixers and the renderer touch no variable of `Client`. -/
def animate (M : MathFns) (delta : ℚ) (now : ℤ) (c : Client) : Client :=
  sendPlayerState M now (updatePlayerMovementAndAnimation M delta c)

/-! ## Inbound messages and the connection (client.js lines 276-369) -/

/-- The property names a plain object inherits from `Object.prototype`.  The
lookup `otherPlayers[name]` finds a truthy inherited value (a function, or the
prototype itself) for each of them, although the object has no such entry. -/
def inheritedNames : List String :=
  ["constructor", "__defineGetter__", "__defineSetter__", "hasOwnProperty",
   "__lookupGetter__", "__lookupSetter__", "isPrototypeOf", "propertyIsEnumerable",
   "toString", "valueOf", "__proto__", "toLocaleString"]

/-- The registry has an entry of its own under the key. -/
def hasEntry (c : Client) (key : String) : Bool :=
  c.otherPlayers.any (fun e => e.1 == key)

/-- Truthiness of `otherPlayers[id]` on the plain object `otherPlayers`: entries
are objects, so the lookup is truthy when the key is present, and it is also
truthy for the inherited names. -/
def hasPlayer (c : Client) (id : IdVal) : Bool :=
  hasEntry c id.toKey || inheritedNames.contains id.toKey

/-- `loadOtherPlayerModel` (lines 276-279): it starts a model load whose
completion callback has an empty body, so no variable of `Client` changes,
neither at the call nor when the load completes. -/
def loadOtherPlayerModel (_playerId : IdVal) (_initialState : PlayerData)
    (c : Client) : Client := c

/-- Lines 334-339 on one entry: the position and the quaternion are set when the
message carries them; the three animation branches have empty bodies. -/
def applyUpdate (p : PlayerData) (other : Peer) : Peer :=
  let o1 := match p.position with
    | some v => { other with position := v }
    | none => other
  match p.rotation with
    | some q => { o1 with quaternion := q }
    | none => o1

/-- `websocket.onmessage` after `JSON.parse`, by `message.type`.  The status
line is not part of `Client`.  When the lookup in a `playerLeft` or
`updateState` guard is truthy through an inherited name, there is no entry to
delete or to update: `delete` does nothing and the update throws inside the
handler's `try`, so the registry is left as it was, as the filter and the map
below leave it. -/
def onMessage (m : Message) (c : Client) : Client :=
  match m with
  | .yourId id =>
    if c.localPlayerId.truthy = false then { c with localPlayerId := id } else c
  | .initialState yourId players =>
    let c1 := if c.localPlayerId.truthy = false then { c with localPlayerId := yourId } else c
    players.foldl
      (fun s p =>
        if p.id ≠ s.localPlayerId ∧ hasPlayer s p.id = false then
          loadOtherPlayerModel p.id p s
        else s)
      c1
  | .playerJoined p =>
    if c.localPlayerId.truthy = true ∧ p.id ≠ c.localPlayerId ∧ hasPlayer c p.id = false then
      loadOtherPlayerModel p.id p c
    else c
  | .playerLeft id =>
    if id ≠ c.localPlayerId ∧ hasPlayer c id = true then
      { c with otherPlayers := c.otherPlayers.filter (fun e => e.1 != id.toKey) }
    else c
  | .updateState p =>
    if p.id ≠ c.localPlayerId ∧ hasPlayer c p.id = true then
      let key := p.id.toKey
      { c with otherPlayers :=
          c.otherPlayers.map (fun e => if e.1 = key then (e.1, applyUpdate p e.2) else e) }
    else c
  | .unknown _ _ => c

/-- Modelled from the spec: the completion callback of the model load started by
`loadOtherPlayerModel`, whose body is elided in client.js (line 278).  Spec 4.3,
`upsertOnJoin(id, initialState)`: "creates an entry only if absent; joining an
already-known id is a no-op"; spec 3: the position and the orientation are
those last received and the current animation "defaults to Idle when absent".
The load is taken to complete at the call.  A position or rotation the record
does not carry is the origin or the identity, and the peer's model has the
three named actions. -/
def upsertOnJoin (playerId : IdVal) (initialState : PlayerData) (c : Client) : Client :=
  if hasEntry c playerId.toKey = true then c
  else
    { c with otherPlayers := c.otherPlayers ++
        [(playerId.toKey,
          { position := initialState.position.getD ⟨0, 0, 0⟩,
            quaternion := initialState.rotation.getD ⟨0, 0, 0, 1⟩,
            currentState := initialState.animationState.getD "Idle",
            actions := ["Idle", "Walk", "Run"] })] }

/-- The handler `websocket.onmessage` of lines 293-354 with the effect of
`loadOtherPlayerModel` as the parameter `load`; `onMessage` is this function at
the loader of the source. -/
def onMessageWith (load : IdVal → PlayerData → Client → Client)
    (m : Message) (c : Client) : Client :=
  match m with
  | .yourId id =>
    if c.localPlayerId.truthy = false then { c with localPlayerId := id } else c
  | .initialState yourId players =>
    let c1 := if c.localPlayerId.truthy = false then { c with localPlayerId := yourId } else c
    players.foldl
      (fun s p =>
        if p.id ≠ s.localPlayerId ∧ hasPlayer s p.id = false then load p.id p s
        else s)
      c1
  | .playerJoined p =>
    if c.localPlayerId.truthy = true ∧ p.id ≠ c.localPlayerId ∧ hasPlayer c p.id = false then
      load p.id p c
    else c
  | .playerLeft id =>
    if id ≠ c.localPlayerId ∧ hasPlayer c id = true then
      { c with otherPlayers := c.otherPlayers.filter (fun e => e.1 != id.toKey) }
    else c
  | .updateState p =>
    if p.id ≠ c.localPlayerId ∧ hasPlayer c p.id = true then
      let key := p.id.toKey
      { c with otherPlayers :=
          c.otherPlayers.map (fun e => if e.1 = key then (e.1, applyUpdate p e.2) else e) }
    else c
  | .unknown _ _ => c

/-- `websocket.onclose`: the registry is emptied and the local id cleared; the
socket that fired the event has `readyState` `CLOSED` (3). -/
def onClose (c : Client) : Client :=
  { c with otherPlayers := [], localPlayerId := IdVal.null, websocket := some 3 }

/-- `connectWebSocket`: a new socket, in `readyState` `CONNECTING` (0). -/
def connectWebSocket (c : Client) : Client := { c with websocket := some 0 }

/-- The socket reaches `readyState` `OPEN`; `onopen` only sets the status line. -/
def onOpen (c : Client) : Client := { c with websocket := some WS_OPEN }

/-! ## Runs -/

/-- What can happen to the client between two observations.  `setInput` stands
for the key and mouse events that leave the movement flags and the yaw at the
given values. -/
inductive Event where
  | setInput (forward backward left right running : Bool) (yaw : ℚ)
  | update (delta : ℚ)
  | frame (delta : ℚ) (now : ℤ)
  | keyDown (code : String) (now : ℤ)
  | keyUp (code : String)
  | respawn (now : ℤ)
  | send (now : ℤ)
  | message (m : Message)
  | connect
  | opened
  | closed

/-- One event applied to the client. -/
def step (M : MathFns) (c : Client) : Event → Client
  | .setInput f b l r run yaw =>
    { c with moveForward := f, moveBackward := b, moveLeft := l, moveRight := r,
             isRunning := run, rotationY := yaw }
  | .update delta => updatePlayerMovementAndAnimation M delta c
  | .frame delta now => animate M delta now c
  | .keyDown code now => onKeyDown M code now c
  | .keyUp code => onKeyUp code c
  | .respawn now => respawnPlayer M now c
  | .send now => sendPlayerState M now c
  | .message m => onMessage m c
  | .connect => connectWebSocket c
  | .opened => onOpen c
  | .closed => onClose c

/-- A finite sequence of events applied in order. -/
def run (M : MathFns) (c : Client) (es : List Event) : Client :=
  es.foldl (step M) c

/-- What the connection delivers: an inbound message or the close of the
socket. -/
inductive NetEvent where
  | message (m : Message)
  | closed

/-- One connection event, with the effect of `loadOtherPlayerModel` as the
parameter `load`. -/
def receive (load : IdVal → PlayerData → Client → Client) (c : Client) :
    NetEvent → Client
  | .message m => onMessageWith load m c
  | .closed => onClose c

/-- A finite sequence of connection events applied in order. -/
def receiveAll (load : IdVal → PlayerData → Client → Client) (c : Client)
    (es : List NetEvent) : Client :=
  es.foldl (receive load) c

/-- The ids of a connection event have the shapes of spec 6: an `initialState`
carries a non-empty string `yourId`, and every player it lists, like the player
of a `playerJoined`, has a string `id`. -/
def NetEvent.idsWellFormed : NetEvent → Prop
  | .message (.initialState yourId players) =>
    yourId.truthy = true ∧ ∀ p ∈ players, ∃ s : String, p.id = IdVal.str s
  | .message (.playerJoined p) => ∃ s : String, p.id = IdVal.str s
  | _ => True

/-- Successive `sendPlayerState` calls, one per clock reading, in order. -/
def sendAll (M : MathFns) (times : List ℤ) (c : Client) : Client :=
  times.foldl (fun s t => sendPlayerState M t s) c

/-- Successive `yourId` messages, one per id, in order. -/
def receiveYourIds (ids : List IdVal) (c : Client) : Client :=
  ids.foldl (fun s i => onMessage (Message.yourId i) s) c

/-- What one tick of the render loop finds: the `delta` of the clock, and the
movement flags and yaw the key and mouse events since the last tick left. -/
structure TickInput where
  delta : ℚ
  forward : Bool
  backward : Bool
  left : Bool
  right : Bool
  running : Bool
  yaw : ℚ

/-- One `updatePlayerMovementAndAnimation` call with the given input. -/
def tick (M : MathFns) (c : Client) (i : TickInput) : Client :=
  step M (step M c (Event.setInput i.forward i.backward i.left i.right i.running i.yaw))
    (Event.update i.delta)

/-- Consecutive ticks, one per input, in order. -/
def ticks (M : MathFns) (c : Client) (inputs : List TickInput) : Client :=
  inputs.foldl (tick M) c

/-- The airborne test of line 538: `isJumping || player.position.y > GROUND_HEIGHT`. -/
def inAir (c : Client) : Prop := c.isJumping = true ∨ c.position.y > GROUND_HEIGHT

/-! ## Concrete inputs used in the examples -/

/-- A tick of 1/60 s with the forward and run keys held, yaw 0. -/
def heldForward : TickInput :=
  { delta := 1 / 60, forward := true, backward := false, left := false,
    right := false, running := true, yaw := 0 }

/-- The socket opens, `yourId` "me" arrives, a frame runs at clock reading 1000
and the player respawns at clock reading 1010. -/
def respawnRun : List Event :=
  [Event.opened, Event.message (Message.yourId (IdVal.str "me")),
   Event.frame (1 / 60) 1000, Event.respawn 1010]

/-- The socket opens, `yourId` "me" arrives, the forward and run keys go down,
a tick runs on the ground, and Space is pressed. -/
def runThenJump : List Event :=
  [Event.opened, Event.message (Message.yourId (IdVal.str "me")),
   Event.setInput true false false false true 0, Event.update (1 / 60),
   Event.keyDown "Space" 0]

/-- The state `initial` once the socket is open, the id "me" is assigned and the
forward and run keys are held. -/
def runningOnline : Client :=
  { initial with
    websocket := some WS_OPEN, localPlayerId := IdVal.str "me",
    moveForward := true, isRunning := true }

/-- The state `airborne` with the forward and run keys held and "Run" still
recorded as the current action. -/
def airborneRun : Client :=
  { initial with
    position := ⟨200, 13 / 10, 0⟩, isJumping := true, isGrounded := false,
    verticalVelocity := 57 / 200, isAudioInitialized := true,
    moveForward := true, isRunning := true, currentActionName := "Run" }

/-- Rational stand-ins for the library functions at yaw `1`: the sine and the
cosine of `1/2` rounded to three decimals, which do not have unit length. -/
def roundedMath : MathFns := ⟨fun q => q, fun _ => 479 / 1000, fun _ => 439 / 500⟩

/-- The state `initial` turned to yaw `1` with the forward and run keys held. -/
def turnedRunning : Client :=
  { initial with moveForward := true, isRunning := true, rotationY := 1 }

/-- The `playerJoined` message for id "p1" at position (1, 1, 1). -/
def joinP1 : Message :=
  Message.playerJoined
    { id := IdVal.str "p1", position := some ⟨1, 1, 1⟩, rotation := none,
      animationState := none }

/-- The `updateState` message for id "p1" with position (2, 1, 1) and
animationState "Walk". -/
def updateP1 : Message :=
  Message.updateState
    { id := IdVal.str "p1", position := some ⟨2, 1, 1⟩, rotation := none,
      animationState := some "Walk" }

/-- The state `initial` once the socket is open and the id "me" is assigned. -/
def connected : Client :=
  { initial with websocket := some WS_OPEN, localPlayerId := IdVal.str "me" }

/-- Rational stand-ins for the library functions at yaw `0`: the square root is
exact on `0` and `1`, the sine is `0` and the cosine `1`. -/
def sampleMath : MathFns := ⟨fun q => q, fun _ => 0, fun _ => 1⟩

/-- The state one update after a Space press from `initial`: airborne, rising. -/
def airborne : Client :=
  { initial with
    position := ⟨200, 13 / 10, 0⟩, isJumping := true, isGrounded := false,
    verticalVelocity := 57 / 200, isAudioInitialized := true }

/-- `yourId` "me" arrives, "p1" joins and is updated, a `playerJoined` carrying
the local id arrives, and an `initialState` lists "me", "p1" and "p2". -/
def sampleTraffic : List NetEvent :=
  [NetEvent.message (Message.yourId (IdVal.str "me")),
   NetEvent.message joinP1, NetEvent.message updateP1,
   NetEvent.message (Message.playerJoined ⟨IdVal.str "me", none, none, none⟩),
   NetEvent.message (Message.initialState (IdVal.str "me")
     [⟨IdVal.str "me", none, none, none⟩, ⟨IdVal.str "p1", none, none, none⟩,
      ⟨IdVal.str "p2", none, none, none⟩])]

/-- An `initialState` whose `yourId` is the empty string lists "abc", then a
`yourId` message carries "abc". -/
def emptyYourIdTraffic : List NetEvent :=
  [NetEvent.message (Message.initialState (IdVal.str "")
     [⟨IdVal.str "abc", none, none, none⟩]),
   NetEvent.message (Message.yourId (IdVal.str "abc"))]

/-- A `yourId` message carries the string "undefined", then an `initialState`
lists a player record without an `id`. -/
def missingIdTraffic : List NetEvent :=
  [NetEvent.message (Message.yourId (IdVal.str "undefined")),
   NetEvent.message (Message.initialState (IdVal.str "undefined")
     [⟨IdVal.undefined, none, none, none⟩])]

/-! ## Frame lemmas -/

theorem applyQuaternion_yaw_y (M : MathFns) (v : Vector3) (yaw : ℚ) :
    (v.applyQuaternion (quaternionFromYaw M yaw)).y = v.y := by
  simp [Vector3.applyQuaternion, quaternionFromYaw]

theorem inputDirection_y (c : Client) : (inputDirection c).y = 0 := by
  unfold inputDirection
  cases c.moveForward <;> cases c.moveBackward <;> cases c.moveLeft <;>
    cases c.moveRight <;> simp

theorem movedDirection_y (M : MathFns) (c : Client) : (movedDirection M c).y = 0 := by
  unfold movedDirection
  simp only []
  split_ifs <;>
    simp [Vector3.multiplyScalar, applyQuaternion_yaw_y, Vector3.normalize,
      inputDirection_y]

theorem applyMovement_y (M : MathFns) (c : Client) :
    (applyMovement M c).position.y = c.position.y := by
  unfold applyMovement
  split
  · simp [Vector3.add, movedDirection_y]
  · rfl

theorem applyMovement_motion (M : MathFns) (c : Client) :
    (applyMovement M c).isJumping = c.isJumping ∧
    (applyMovement M c).verticalVelocity = c.verticalVelocity ∧
    (applyMovement M c).isGrounded = c.isGrounded ∧
    (applyMovement M c).isRunning = c.isRunning ∧
    (applyMovement M c).currentActionName = c.currentActionName ∧
    (applyMovement M c).actions = c.actions := by
  unfold applyMovement
  split <;> simp

theorem applyAnimation_motion (M : MathFns) (d : Vector3) (c : Client) :
    (applyAnimation M d c).position = c.position ∧
    (applyAnimation M d c).isJumping = c.isJumping ∧
    (applyAnimation M d c).verticalVelocity = c.verticalVelocity ∧
    (applyAnimation M d c).isGrounded = c.isGrounded := by
  unfold applyAnimation
  simp only []
  split <;> simp

theorem applyJump_xz (c : Client) :
    (applyJump c).position.x = c.position.x ∧ (applyJump c).position.z = c.position.z := by
  unfold applyJump
  simp only []
  split_ifs <;> simp

theorem applyJump_ground (c : Client) (h : GROUND_HEIGHT ≤ c.position.y) :
    GROUND_HEIGHT ≤ (applyJump c).position.y := by
  unfold applyJump
  simp only []
  split_ifs with h1 h2 h3 h4
  · simp
  · simpa using le_of_lt (not_le.mp h2)
  · simp
  · simpa using le_of_lt (not_le.mp h4)
  · exact h

theorem applyJump_land (c : Client)
    (hair : c.isJumping = true ∨ c.position.y > GROUND_HEIGHT)
    (hl : c.position.y + c.verticalVelocity ≤ GROUND_HEIGHT) :
    (applyJump c).position.y = GROUND_HEIGHT ∧ (applyJump c).verticalVelocity = 0 ∧
    (applyJump c).isGrounded = true ∧ (applyJump c).isJumping = false := by
  unfold applyJump
  simp only []
  split_ifs with h1 h2
  · simp
  · simp
    simpa using h1
  · rcases hair with h | h
    · exact absurd h h1
    · exact absurd h h2

theorem applyJump_fly (c : Client)
    (hair : c.isJumping = true ∨ c.position.y > GROUND_HEIGHT)
    (hf : GROUND_HEIGHT < c.position.y + c.verticalVelocity) :
    (applyJump c).position.y = c.position.y + c.verticalVelocity ∧
    (applyJump c).verticalVelocity = c.verticalVelocity + GRAVITY := by
  have hn : ¬ c.position.y + c.verticalVelocity ≤ GROUND_HEIGHT := not_le.mpr hf
  unfold applyJump
  simp only []
  split_ifs with h1 h2
  · simp
  · simp
  · rcases hair with h | h
    · exact absurd h h1
    · exact absurd h h2

theorem sendPlayerState_motion (M : MathFns) (now : ℤ) (c : Client) :
    (sendPlayerState M now c).position = c.position ∧
    (sendPlayerState M now c).isJumping = c.isJumping ∧
    (sendPlayerState M now c).verticalVelocity = c.verticalVelocity ∧
    (sendPlayerState M now c).isGrounded = c.isGrounded ∧
    (sendPlayerState M now c).currentActionName = c.currentActionName := by
  unfold sendPlayerState
  split_ifs <;> simp

theorem update_ground (M : MathFns) (delta : ℚ) (c : Client)
    (h : GROUND_HEIGHT ≤ c.position.y) :
    GROUND_HEIGHT ≤ (updatePlayerMovementAndAnimation M delta c).position.y := by
  unfold updatePlayerMovementAndAnimation
  rw [(applyAnimation_motion M _ _).1]
  exact applyJump_ground _ (by rw [applyMovement_y]; exact h)

theorem respawn_ground (M : MathFns) (now : ℤ) (c : Client) :
    GROUND_HEIGHT ≤ (respawnPlayer M now c).position.y := by
  unfold respawnPlayer
  rw [(sendPlayerState_motion M now _).1]
  simp [RESPAWN_POSITION]

theorem onKeyDown_ground (M : MathFns) (code : String) (now : ℤ) (c : Client)
    (h : GROUND_HEIGHT ≤ c.position.y) :
    GROUND_HEIGHT ≤ (onKeyDown M code now c).position.y := by
  unfold onKeyDown
  split_ifs <;> first | exact h | exact respawn_ground M now c

theorem onKeyUp_position (code : String) (c : Client) :
    (onKeyUp code c).position = c.position := by
  unfold onKeyUp
  split_ifs <;> rfl

theorem initialState_fold_eq (players : List PlayerData) (c : Client) :
    players.foldl
      (fun s p =>
        if p.id ≠ s.localPlayerId ∧ hasPlayer s p.id = false then
          loadOtherPlayerModel p.id p s
        else s) c = c := by
  induction players with
  | nil => rfl
  | cons p ps ih => simp [List.foldl, loadOtherPlayerModel, ih]

theorem onMessage_position (m : Message) (c : Client) :
    (onMessage m c).position = c.position := by
  cases m with
  | yourId id => simp only [onMessage]; split_ifs <;> rfl
  | initialState y ps =>
    simp only [onMessage, initialState_fold_eq]
    split_ifs <;> rfl
  | playerJoined p => simp only [onMessage]; split_ifs <;> rfl
  | playerLeft id => simp only [onMessage]; split_ifs <;> rfl
  | updateState p => simp only [onMessage]; split_ifs <;> rfl
  | unknown t id => rfl

theorem step_ground (M : MathFns) (c : Client) (e : Event)
    (h : GROUND_HEIGHT ≤ c.position.y) : GROUND_HEIGHT ≤ (step M c e).position.y := by
  cases e with
  | setInput f b l r rn yaw => exact h
  | update delta => exact update_ground M delta c h
  | frame delta now =>
    show GROUND_HEIGHT ≤ (sendPlayerState M now _).position.y
    rw [(sendPlayerState_motion M now _).1]
    exact update_ground M delta c h
  | keyDown code now => exact onKeyDown_ground M code now c h
  | keyUp code =>
    show GROUND_HEIGHT ≤ (onKeyUp code c).position.y
    rw [onKeyUp_position]; exact h
  | respawn now => exact respawn_ground M now c
  | send now =>
    show GROUND_HEIGHT ≤ (sendPlayerState M now c).position.y
    rw [(sendPlayerState_motion M now c).1]; exact h
  | message m =>
    show GROUND_HEIGHT ≤ (onMessage m c).position.y
    rw [onMessage_position]; exact h
  | connect => exact h
  | opened => exact h
  | closed => exact h

theorem run_ground (M : MathFns) (es : List Event) (c : Client)
    (h : GROUND_HEIGHT ≤ c.position.y) : GROUND_HEIGHT ≤ (run M c es).position.y := by
  induction es generalizing c with
  | nil => exact h
  | cons e es ih => exact ih (step M c e) (step_ground M c e h)

/-! ## The claims -/

/-- C1.  Ground clamp: from a state with the player at `RESPAWN_POSITION`, zero
vertical velocity, grounded and not jumping, after every finite sequence of
events (updates with any flags and yaw, key presses including Space, respawns,
and every other event of the client) `position.y` is at least `GROUND_HEIGHT`. -/
theorem C1_ground_clamp_invariant (M : MathFns) (c0 : Client)
    (hpos : c0.position = RESPAWN_POSITION) (_hv : c0.verticalVelocity = 0)
    (_hg : c0.isGrounded = true) (_hj : c0.isJumping = false) (es : List Event) :
    GROUND_HEIGHT ≤ (run M c0 es).position.y :=
  run_ground M es c0 (by rw [hpos]; simp [RESPAWN_POSITION])

/-- Witness for C1: the state `initial`, a Space press followed by two updates
with the forward flag set. -/
theorem C1_ground_clamp_invariant_witness :
    GROUND_HEIGHT ≤ (run sampleMath initial
      [Event.keyDown "Space" 0, Event.setInput true false false false false 0,
       Event.update 0, Event.update 0]).position.y :=
  C1_ground_clamp_invariant sampleMath initial rfl rfl rfl rfl _

/-- C2.  A Space keydown while not grounded changes nothing at all; while
grounded it sets `verticalVelocity = JUMP_FORCE`, `isGrounded = false` and
`isJumping = true` and leaves the position where it was. -/
theorem C2_jump_only_when_grounded (M : MathFns) (now : ℤ) (c : Client) :
    (c.isGrounded = false → onKeyDown M "Space" now c = c) ∧
    (c.isGrounded = true →
      (onKeyDown M "Space" now c).verticalVelocity = JUMP_FORCE ∧
      (onKeyDown M "Space" now c).isGrounded = false ∧
      (onKeyDown M "Space" now c).isJumping = true ∧
      (onKeyDown M "Space" now c).position = c.position) := by
  constructor
  · intro h
    simp [onKeyDown, h]
  · intro h
    simp [onKeyDown, h]

/-- Witness for C2: Space in the state `airborne` and in the state `initial`. -/
theorem C2_jump_only_when_grounded_witness :
    onKeyDown sampleMath "Space" 0 airborne = airborne ∧
    ((onKeyDown sampleMath "Space" 0 initial).verticalVelocity = JUMP_FORCE ∧
      (onKeyDown sampleMath "Space" 0 initial).isGrounded = false ∧
      (onKeyDown sampleMath "Space" 0 initial).isJumping = true ∧
      (onKeyDown sampleMath "Space" 0 initial).position = initial.position) :=
  ⟨(C2_jump_only_when_grounded sampleMath 0 airborne).1 rfl,
   (C2_jump_only_when_grounded sampleMath 0 initial).2 rfl⟩

/-- C3.  An update that starts airborne (jumping, or above the ground height)
lands when `position.y + verticalVelocity` is at or below `GROUND_HEIGHT`: then
`position.y = GROUND_HEIGHT`, `verticalVelocity = 0`, `isGrounded = true` and
`isJumping = false`.  When the sum is above `GROUND_HEIGHT` the update adds the
old velocity to `position.y` and `GRAVITY` to the velocity. -/
theorem C3_landing_postcondition (M : MathFns) (delta : ℚ) (c : Client)
    (hair : c.isJumping = true ∨ c.position.y > GROUND_HEIGHT) :
    (c.position.y + c.verticalVelocity ≤ GROUND_HEIGHT →
      (updatePlayerMovementAndAnimation M delta c).position.y = GROUND_HEIGHT ∧
      (updatePlayerMovementAndAnimation M delta c).verticalVelocity = 0 ∧
      (updatePlayerMovementAndAnimation M delta c).isGrounded = true ∧
      (updatePlayerMovementAndAnimation M delta c).isJumping = false) ∧
    (GROUND_HEIGHT < c.position.y + c.verticalVelocity →
      (updatePlayerMovementAndAnimation M delta c).position.y
        = c.position.y + c.verticalVelocity ∧
      (updatePlayerMovementAndAnimation M delta c).verticalVelocity
        = c.verticalVelocity + GRAVITY) := by
  obtain ⟨hj, hv, -, -, -, -⟩ := applyMovement_motion M c
  have hy := applyMovement_y M c
  have hair1 : (applyMovement M c).isJumping = true ∨
      (applyMovement M c).position.y > GROUND_HEIGHT := by rw [hj, hy]; exact hair
  obtain ⟨ap, aj, av, ag⟩ :=
    applyAnimation_motion M (movedDirection M c) (applyJump (applyMovement M c))
  unfold updatePlayerMovementAndAnimation
  rw [ap, aj, av, ag]
  constructor
  · intro hl
    exact applyJump_land _ hair1 (by rw [hy, hv]; exact hl)
  · intro hf
    have := applyJump_fly _ hair1 (by rw [hy, hv]; exact hf)
    rw [hy, hv] at this
    exact this

/-- Witness for C3: the state `airborne` keeps rising; the same state with a
downward velocity of `-1/2` lands. -/
theorem C3_landing_postcondition_witness :
    ((updatePlayerMovementAndAnimation sampleMath 0
        { airborne with verticalVelocity := -(1 / 2) }).position.y = GROUND_HEIGHT ∧
      (updatePlayerMovementAndAnimation sampleMath 0
        { airborne with verticalVelocity := -(1 / 2) }).verticalVelocity = 0 ∧
      (updatePlayerMovementAndAnimation sampleMath 0
        { airborne with verticalVelocity := -(1 / 2) }).isGrounded = true ∧
      (updatePlayerMovementAndAnimation sampleMath 0
        { airborne with verticalVelocity := -(1 / 2) }).isJumping = false) ∧
    ((updatePlayerMovementAndAnimation sampleMath 0 airborne).position.y
        = airborne.position.y + airborne.verticalVelocity ∧
      (updatePlayerMovementAndAnimation sampleMath 0 airborne).verticalVelocity
        = airborne.verticalVelocity + GRAVITY) :=
  ⟨(C3_landing_postcondition sampleMath 0
      { airborne with verticalVelocity := -(1 / 2) } (Or.inl rfl)).1
      (by norm_num [airborne, initial, GROUND_HEIGHT]),
   (C3_landing_postcondition sampleMath 0 airborne (Or.inl rfl)).2
      (by norm_num [airborne, initial, GROUND_HEIGHT])⟩

theorem inputDirection_cancel (c : Client) (hfb : c.moveForward = c.moveBackward)
    (hlr : c.moveLeft = c.moveRight) : inputDirection c = ⟨0, 0, 0⟩ := by
  unfold inputDirection
  rw [hfb, hlr]
  cases c.moveBackward <;> cases c.moveRight <;> simp

/-- C4.  Opposing flags cancel: when `moveForward = moveBackward` and
`moveLeft = moveRight`, an update leaves `position.x` and `position.z` unchanged,
for every yaw, delta and running flag, grounded or airborne. -/
theorem C4_opposing_flags_cancel (M : MathFns) (delta : ℚ) (c : Client)
    (hfb : c.moveForward = c.moveBackward) (hlr : c.moveLeft = c.moveRight) :
    (updatePlayerMovementAndAnimation M delta c).position.x = c.position.x ∧
    (updatePlayerMovementAndAnimation M delta c).position.z = c.position.z := by
  have hd := inputDirection_cancel c hfb hlr
  have hm : (applyMovement M c).position = c.position := by
    unfold applyMovement movedDirection
    simp only [hd]
    split_ifs <;>
      simp [Vector3.add, Vector3.multiplyScalar, Vector3.normalize,
        Vector3.applyQuaternion]
  obtain ⟨ap, -, -, -⟩ :=
    applyAnimation_motion M (movedDirection M c) (applyJump (applyMovement M c))
  obtain ⟨jx, jz⟩ := applyJump_xz (applyMovement M c)
  unfold updatePlayerMovementAndAnimation
  rw [ap, jx, jz, hm]
  exact ⟨rfl, rfl⟩

/-- Witness for C4: forward and backward both held, left and right both
released, running, in the state `airborne`. -/
theorem C4_opposing_flags_cancel_witness :
    (updatePlayerMovementAndAnimation sampleMath 0
      { airborne with moveForward := true, moveBackward := true,
                      isRunning := true }).position.x = 200 ∧
    (updatePlayerMovementAndAnimation sampleMath 0
      { airborne with moveForward := true, moveBackward := true,
                      isRunning := true }).position.z = 0 :=
  C4_opposing_flags_cancel sampleMath 0
    { airborne with moveForward := true, moveBackward := true, isRunning := true }
    rfl rfl

/-- C5, as stated, fails: respawning in the state `airborne` leaves
`verticalVelocity` at `57/200` and `isGrounded` at `false`. -/
theorem C5_respawn_resets_counterexample :
    ¬ ((respawnPlayer sampleMath 0 airborne).position = RESPAWN_POSITION ∧
       (respawnPlayer sampleMath 0 airborne).verticalVelocity = 0 ∧
       (respawnPlayer sampleMath 0 airborne).isGrounded = true) := by
  rintro ⟨-, -, h⟩
  rw [respawnPlayer, (sendPlayerState_motion _ _ _).2.2.2.1] at h
  exact absurd h (by decide)

/-- C5, amended.  `respawnPlayer` moves the player to `RESPAWN_POSITION` and
leaves `verticalVelocity`, `isGrounded` and `isJumping` as they were. -/
theorem C5_respawn_resets_position_only (M : MathFns) (now : ℤ) (c : Client) :
    (respawnPlayer M now c).position = RESPAWN_POSITION ∧
    (respawnPlayer M now c).verticalVelocity = c.verticalVelocity ∧
    (respawnPlayer M now c).isGrounded = c.isGrounded ∧
    (respawnPlayer M now c).isJumping = c.isJumping := by
  obtain ⟨hp, hj, hv, hg, -⟩ :=
    sendPlayerState_motion M now { c with position := RESPAWN_POSITION, lastSendTime := 0 }
  unfold respawnPlayer
  rw [hp, hj, hv, hg]
  exact ⟨rfl, rfl, rfl, rfl⟩

theorem sendPlayerState_guarded (M : MathFns) (now : ℤ) (c : Client)
    (h : c.websocket ≠ some WS_OPEN ∨ c.localPlayerId.truthy = false) :
    sendPlayerState M now c = c := by
  unfold sendPlayerState
  rw [if_pos h]

theorem sendPlayerState_early (M : MathFns) (now : ℤ) (c : Client)
    (h : now - c.lastSendTime < SEND_RATE) : sendPlayerState M now c = c := by
  unfold sendPlayerState
  split_ifs <;> rfl

theorem sendPlayerState_due (M : MathFns) (now : ℤ) (c : Client)
    (ho : c.websocket = some WS_OPEN) (hi : c.localPlayerId.truthy = true)
    (h : SEND_RATE ≤ now - c.lastSendTime) :
    sendPlayerState M now c =
      { c with lastSendTime := now, sent := c.sent ++ [(now, playerState M c)] } := by
  unfold sendPlayerState
  rw [if_neg (by simp [ho, hi]), if_neg (not_lt.mpr h)]

theorem sendAll_early (M : MathFns) (ts : List ℤ) (c : Client)
    (h : ∀ r ∈ ts, r - c.lastSendTime < SEND_RATE) : sendAll M ts c = c := by
  induction ts with
  | nil => rfl
  | cons t ts ih =>
    have ht : sendPlayerState M t c = c :=
      sendPlayerState_early M t c (h t (List.mem_cons_self t ts))
    show sendAll M ts (sendPlayerState M t c) = c
    rw [ht]
    exact ih (fun r hr => h r (List.mem_cons_of_mem t hr))

theorem sendAll_spaced (M : MathFns) (ts : List ℤ) (c : Client)
    (ho : c.websocket = some WS_OPEN) (hi : c.localPlayerId.truthy = true) :
    ∃ new : List (ℤ × OutMessage),
      (sendAll M ts c).sent = c.sent ++ new ∧
      new.Pairwise (fun a b => a.1 + SEND_RATE ≤ b.1) ∧
      ∀ a ∈ new, c.lastSendTime + SEND_RATE ≤ a.1 := by
  induction ts generalizing c with
  | nil => exact ⟨[], by simp [sendAll], List.Pairwise.nil, by simp⟩
  | cons t ts ih =>
    by_cases h : SEND_RATE ≤ t - c.lastSendTime
    · have hs := sendPlayerState_due M t c ho hi h
      obtain ⟨new, h1, h2, h3⟩ := ih (sendPlayerState M t c)
        (by rw [hs]; exact ho) (by rw [hs]; exact hi)
      have hlast : (sendPlayerState M t c).lastSendTime = t := by rw [hs]
      have hsent : (sendPlayerState M t c).sent = c.sent ++ [(t, playerState M c)] := by
        rw [hs]
      rw [hlast] at h3
      refine ⟨(t, playerState M c) :: new, ?_, ?_, ?_⟩
      · show (sendAll M ts (sendPlayerState M t c)).sent = _
        rw [h1, hsent]
        simp
      · exact List.Pairwise.cons (fun a ha => h3 a ha) h2
      · intro a ha
        rcases List.mem_cons.mp ha with rfl | ha
        · show c.lastSendTime + SEND_RATE ≤ t
          linarith
        · have := h3 a ha
          have h0 : (0 : ℤ) ≤ SEND_RATE := by decide
          linarith
    · have hs := sendPlayerState_early M t c (not_le.mp h)
      obtain ⟨new, h1, h2, h3⟩ := ih c ho hi
      refine ⟨new, ?_, h2, h3⟩
      show (sendAll M ts (sendPlayerState M t c)).sent = _
      rw [hs, h1]

/-- C6.  With the socket open and a truthy local id: a `sendPlayerState` call
transmits exactly when its clock reading is at least `SEND_RATE` after
`lastSendTime`, and then `lastSendTime` becomes that reading; over any sequence
of calls every two transmitted messages are at least `SEND_RATE` apart, the
first at least `SEND_RATE` after the starting `lastSendTime`; after a call that
transmits at `t`, calls whose readings are less than `SEND_RATE` after `t` add
nothing, so the window holds exactly one message.  With the socket not open or
the id unset or empty, a call changes nothing. -/
theorem C6_send_rate_limit (M : MathFns) (c : Client) :
    (c.websocket = some WS_OPEN → c.localPlayerId.truthy = true →
      (∀ now : ℤ,
        (SEND_RATE ≤ now - c.lastSendTime →
          sendPlayerState M now c =
            { c with lastSendTime := now,
                     sent := c.sent ++ [(now, playerState M c)] }) ∧
        (now - c.lastSendTime < SEND_RATE → sendPlayerState M now c = c)) ∧
      (∀ times : List ℤ, ∃ new : List (ℤ × OutMessage),
        (sendAll M times c).sent = c.sent ++ new ∧
        new.Pairwise (fun a b => a.1 + SEND_RATE ≤ b.1) ∧
        ∀ a ∈ new, c.lastSendTime + SEND_RATE ≤ a.1) ∧
      (∀ (t : ℤ) (ts : List ℤ), SEND_RATE ≤ t - c.lastSendTime →
        (∀ r ∈ ts, r - t < SEND_RATE) →
        (sendAll M (t :: ts) c).sent = c.sent ++ [(t, playerState M c)] ∧
        (sendAll M (t :: ts) c).lastSendTime = t)) ∧
    ((c.websocket ≠ some WS_OPEN ∨ c.localPlayerId.truthy = false) →
      ∀ now : ℤ, sendPlayerState M now c = c) := by
  refine ⟨fun ho hi => ⟨fun now => ⟨?_, ?_⟩, ?_, ?_⟩, fun h now => ?_⟩
  · exact sendPlayerState_due M now c ho hi
  · exact sendPlayerState_early M now c
  · exact fun times => sendAll_spaced M times c ho hi
  · intro t ts ht hts
    have hs := sendPlayerState_due M t c ho hi ht
    have hrest : sendAll M ts (sendPlayerState M t c) = sendPlayerState M t c :=
      sendAll_early M ts _ (by rw [hs]; exact hts)
    show (sendAll M ts (sendPlayerState M t c)).sent = _ ∧
      (sendAll M ts (sendPlayerState M t c)).lastSendTime = t
    rw [hrest, hs]
    exact ⟨rfl, rfl⟩
  · exact sendPlayerState_guarded M now c h

/-- Witness for C6: in the state `connected`, calls at 1000, 1050 and 1099
transmit one message, at 1000; in the state `initial`, whose socket is not yet
created, a call at 5000 changes nothing. -/
theorem C6_send_rate_limit_witness :
    ((sendAll sampleMath [1000, 1050, 1099] connected).sent
        = connected.sent ++ [(1000, playerState sampleMath connected)] ∧
      (sendAll sampleMath [1000, 1050, 1099] connected).lastSendTime = 1000) ∧
    sendPlayerState sampleMath 5000 initial = initial :=
  ⟨((C6_send_rate_limit sampleMath connected).1 rfl rfl).2.2 1000 [1050, 1099]
      (by decide) (by decide),
   (C6_send_rate_limit sampleMath initial).2 (Or.inl (by decide)) 5000⟩

theorem sendPlayerState_registry (M : MathFns) (now : ℤ) (c : Client) :
    (sendPlayerState M now c).otherPlayers = c.otherPlayers ∧
    (sendPlayerState M now c).localPlayerId = c.localPlayerId := by
  unfold sendPlayerState
  split_ifs <;> simp

theorem update_registry (M : MathFns) (delta : ℚ) (c : Client) :
    (updatePlayerMovementAndAnimation M delta c).otherPlayers = c.otherPlayers ∧
    (updatePlayerMovementAndAnimation M delta c).localPlayerId = c.localPlayerId := by
  unfold updatePlayerMovementAndAnimation applyAnimation applyJump applyMovement
  simp only []
  split_ifs <;> simp

theorem onKeyDown_registry (M : MathFns) (code : String) (now : ℤ) (c : Client) :
    (onKeyDown M code now c).otherPlayers = c.otherPlayers ∧
    (onKeyDown M code now c).localPlayerId = c.localPlayerId := by
  unfold onKeyDown respawnPlayer
  split_ifs <;> first | exact ⟨rfl, rfl⟩ | exact sendPlayerState_registry M now _

theorem onKeyUp_registry (code : String) (c : Client) :
    (onKeyUp code c).otherPlayers = c.otherPlayers ∧
    (onKeyUp code c).localPlayerId = c.localPlayerId := by
  unfold onKeyUp
  split_ifs <;> exact ⟨rfl, rfl⟩

theorem onMessage_registry_empty (m : Message) (c : Client) (h : c.otherPlayers = []) :
    (onMessage m c).otherPlayers = [] := by
  cases m with
  | yourId id => simp only [onMessage]; split_ifs <;> exact h
  | initialState y ps =>
    simp only [onMessage, initialState_fold_eq]
    split_ifs <;> exact h
  | playerJoined p => simp only [onMessage, loadOtherPlayerModel]; split_ifs <;> exact h
  | playerLeft id => simp only [onMessage]; split_ifs <;> simp [h]
  | updateState p => simp only [onMessage]; split_ifs <;> simp [h]
  | unknown t id => exact h

theorem step_registry_empty (M : MathFns) (c : Client) (e : Event)
    (h : c.otherPlayers = []) : (step M c e).otherPlayers = [] := by
  cases e with
  | setInput f b l r rn yaw => exact h
  | update delta => exact (update_registry M delta c).1.trans h
  | frame delta now =>
    exact ((sendPlayerState_registry M now _).1.trans (update_registry M delta c).1).trans h
  | keyDown code now => exact (onKeyDown_registry M code now c).1.trans h
  | keyUp code => exact (onKeyUp_registry code c).1.trans h
  | respawn now => exact (sendPlayerState_registry M now _).1.trans h
  | send now => exact (sendPlayerState_registry M now c).1.trans h
  | message m => exact onMessage_registry_empty m c h
  | connect => exact h
  | opened => exact h
  | closed => rfl

theorem run_registry_empty (M : MathFns) (es : List Event) (c : Client)
    (h : c.otherPlayers = []) : (run M c es).otherPlayers = [] := by
  induction es generalizing c with
  | nil => exact h
  | cons e es ih => exact ih (step M c e) (step_registry_empty M c e h)


theorem onMessage_eq_onMessageWith (m : Message) (c : Client) :
    onMessage m c = onMessageWith loadOtherPlayerModel m c := by
  cases m <;> rfl

theorem upsertOnJoin_localPlayerId (id : IdVal) (p : PlayerData) (c : Client) :
    (upsertOnJoin id p c).localPlayerId = c.localPlayerId := by
  unfold upsertOnJoin
  split_ifs <;> rfl

theorem upsertOnJoin_mem (id : IdVal) (p : PlayerData) (c : Client)
    (e : String × Peer) (he : e ∈ (upsertOnJoin id p c).otherPlayers) :
    e ∈ c.otherPlayers ∨ e.1 = id.toKey := by
  unfold upsertOnJoin at he
  split_ifs at he
  · exact Or.inl he
  · rcases List.mem_append.mp he with h | h
    · exact Or.inl h
    · right
      rw [List.mem_singleton.mp h]

/-- One guarded registration, as in lines 313 and 317-319, keeps the local id
and keeps every key different from it when the player id is a string. -/
theorem guarded_upsert_inv (p : PlayerData) (c : Client)
    (hs : ∃ s : String, p.id = IdVal.str s)
    (hI : ∀ e ∈ c.otherPlayers, IdVal.str e.1 ≠ c.localPlayerId)
    (hguard : p.id ≠ c.localPlayerId) :
    ∀ e ∈ (upsertOnJoin p.id p c).otherPlayers,
      IdVal.str e.1 ≠ (upsertOnJoin p.id p c).localPlayerId := by
  intro e he
  rw [upsertOnJoin_localPlayerId]
  rcases upsertOnJoin_mem p.id p c e he with h | h
  · exact hI e h
  · obtain ⟨s, hs⟩ := hs
    rw [h, hs]
    rw [hs] at hguard
    exact hguard

theorem initialState_fold_inv (players : List PlayerData) (c : Client)
    (hp : ∀ p ∈ players, ∃ s : String, p.id = IdVal.str s)
    (hI : ∀ e ∈ c.otherPlayers, IdVal.str e.1 ≠ c.localPlayerId) :
    (players.foldl
      (fun s p =>
        if p.id ≠ s.localPlayerId ∧ hasPlayer s p.id = false then upsertOnJoin p.id p s
        else s) c).localPlayerId = c.localPlayerId ∧
    ∀ e ∈ (players.foldl
      (fun s p =>
        if p.id ≠ s.localPlayerId ∧ hasPlayer s p.id = false then upsertOnJoin p.id p s
        else s) c).otherPlayers,
      IdVal.str e.1 ≠ (players.foldl
        (fun s p =>
          if p.id ≠ s.localPlayerId ∧ hasPlayer s p.id = false then upsertOnJoin p.id p s
          else s) c).localPlayerId := by
  induction players generalizing c with
  | nil => exact ⟨rfl, hI⟩
  | cons p ps ih =>
    have hps : ∀ q ∈ ps, ∃ s : String, q.id = IdVal.str s :=
      fun q hq => hp q (List.mem_cons_of_mem p hq)
    simp only [List.foldl_cons]
    by_cases hg : p.id ≠ c.localPlayerId ∧ hasPlayer c p.id = false
    · rw [if_pos hg]
      obtain ⟨h1, h2⟩ := ih (upsertOnJoin p.id p c) hps
        (guarded_upsert_inv p c (hp p (List.mem_cons_self p ps)) hI hg.1)
      exact ⟨h1.trans (upsertOnJoin_localPlayerId p.id p c), h2⟩
    · rw [if_neg hg]
      exact ih c hps hI

/-- The registry invariant of the connection handlers with the registering
loader: while the local id is unset or empty the registry is empty, and no key
of the registry is the local id. -/
theorem receive_inv (c : Client) (ev : NetEvent) (hwf : ev.idsWellFormed)
    (hJ : c.localPlayerId.truthy = false → c.otherPlayers = [])
    (hI : ∀ e ∈ c.otherPlayers, IdVal.str e.1 ≠ c.localPlayerId) :
    ((receive upsertOnJoin c ev).localPlayerId.truthy = false →
      (receive upsertOnJoin c ev).otherPlayers = []) ∧
    ∀ e ∈ (receive upsertOnJoin c ev).otherPlayers,
      IdVal.str e.1 ≠ (receive upsertOnJoin c ev).localPlayerId := by
  cases ev with
  | closed =>
    refine ⟨fun _ => rfl, fun e he => ?_⟩
    exact absurd he (List.not_mem_nil e)
  | message m =>
    cases m with
    | yourId id =>
      simp only [receive, onMessageWith]
      by_cases ht : c.localPlayerId.truthy = false
      · rw [if_pos ht]
        refine ⟨fun _ => hJ ht, fun e he => ?_⟩
        have he1 : e ∈ c.otherPlayers := he
        rw [hJ ht] at he1
        exact absurd he1 (List.not_mem_nil e)
      · rw [if_neg ht]
        exact ⟨hJ, hI⟩
    | initialState y ps =>
      obtain ⟨hy, hps⟩ := hwf
      simp only [receive, onMessageWith]
      by_cases ht : c.localPlayerId.truthy = false
      · rw [if_pos ht]
        obtain ⟨h1, h2⟩ := initialState_fold_inv ps { c with localPlayerId := y } hps
          (fun e he => by
            have he1 : e ∈ c.otherPlayers := he
            rw [hJ ht] at he1
            exact absurd he1 (List.not_mem_nil e))
        refine ⟨fun hf => ?_, h2⟩
        rw [h1] at hf
        exact absurd (hy.symm.trans hf) (by decide)
      · rw [if_neg ht]
        obtain ⟨h1, h2⟩ := initialState_fold_inv ps c hps hI
        refine ⟨fun hf => ?_, h2⟩
        rw [h1] at hf
        exact absurd hf ht
    | playerJoined p =>
      simp only [receive, onMessageWith]
      by_cases hg : c.localPlayerId.truthy = true ∧ p.id ≠ c.localPlayerId ∧
          hasPlayer c p.id = false
      · rw [if_pos hg]
        refine ⟨fun hf => ?_, guarded_upsert_inv p c hwf hI hg.2.1⟩
        rw [upsertOnJoin_localPlayerId] at hf
        exact absurd (hg.1.symm.trans hf) (by decide)
      · rw [if_neg hg]
        exact ⟨hJ, hI⟩
    | playerLeft id =>
      simp only [receive, onMessageWith]
      split_ifs
      · refine ⟨fun hf => ?_, fun e he => hI e (List.mem_of_mem_filter he)⟩
        show c.otherPlayers.filter _ = []
        rw [hJ hf]
        rfl
      · exact ⟨hJ, hI⟩
    | updateState p =>
      simp only [receive, onMessageWith]
      split_ifs
      · refine ⟨fun hf => ?_, fun e he => ?_⟩
        · show c.otherPlayers.map _ = []
          rw [hJ hf]
          rfl
        · obtain ⟨e0, he0, rfl⟩ := List.mem_map.mp he
          have hk : (if e0.1 = p.id.toKey then (e0.1, applyUpdate p e0.2) else e0).1 = e0.1 := by
            split_ifs <;> rfl
          rw [hk]
          exact hI e0 he0
      · exact ⟨hJ, hI⟩
    | unknown t id => exact ⟨hJ, hI⟩

theorem receiveAll_inv (es : List NetEvent) (c : Client)
    (hwf : ∀ ev ∈ es, ev.idsWellFormed)
    (hJ : c.localPlayerId.truthy = false → c.otherPlayers = [])
    (hI : ∀ e ∈ c.otherPlayers, IdVal.str e.1 ≠ c.localPlayerId) :
    ∀ e ∈ (receiveAll upsertOnJoin c es).otherPlayers,
      IdVal.str e.1 ≠ (receiveAll upsertOnJoin c es).localPlayerId := by
  induction es generalizing c with
  | nil => exact hI
  | cons ev es ih =>
    obtain ⟨h1, h2⟩ := receive_inv c ev (hwf ev (List.mem_cons_self ev es)) hJ hI
    exact ih (receive upsertOnJoin c ev)
      (fun x hx => hwf x (List.mem_cons_of_mem ev hx)) h1 h2

/-- C7, as stated, fails once peers are registered: from `initial`, an
`initialState` whose `yourId` is the empty string registers "abc" and leaves the
local id unset, and the following `yourId` "abc" makes "abc" the local id while
the registry has the key "abc"; and a player record without an `id` is
registered under the key "undefined" while the local id is the string
"undefined". -/
theorem C7_registry_contains_local_id_counterexample :
    ((receiveAll upsertOnJoin initial emptyYourIdTraffic).otherPlayers.map Prod.fst
        = ["abc"] ∧
      (receiveAll upsertOnJoin initial emptyYourIdTraffic).localPlayerId
        = IdVal.str "abc" ∧
      ¬ ∀ e ∈ (receiveAll upsertOnJoin initial emptyYourIdTraffic).otherPlayers,
          IdVal.str e.1
            ≠ (receiveAll upsertOnJoin initial emptyYourIdTraffic).localPlayerId) ∧
    ((receiveAll upsertOnJoin initial missingIdTraffic).otherPlayers.map Prod.fst
        = ["undefined"] ∧
      (receiveAll upsertOnJoin initial missingIdTraffic).localPlayerId
        = IdVal.str "undefined" ∧
      ¬ ∀ e ∈ (receiveAll upsertOnJoin initial missingIdTraffic).otherPlayers,
          IdVal.str e.1
            ≠ (receiveAll upsertOnJoin initial missingIdTraffic).localPlayerId) := by
  have find : ∀ (c : Client) (k : String), c.otherPlayers.map Prod.fst = [k] →
      c.localPlayerId = IdVal.str k →
      ¬ ∀ e ∈ c.otherPlayers, IdVal.str e.1 ≠ c.localPlayerId := by
    intro c k hk hl hall
    have hmem : k ∈ c.otherPlayers.map Prod.fst := by
      rw [hk]
      exact List.mem_singleton.mpr rfl
    obtain ⟨e, he, hek⟩ := List.mem_map.mp hmem
    exact hall e he (by rw [hek, hl])
  have a1 : (receiveAll upsertOnJoin initial emptyYourIdTraffic).otherPlayers.map Prod.fst
      = ["abc"] := by decide
  have a2 : (receiveAll upsertOnJoin initial emptyYourIdTraffic).localPlayerId
      = IdVal.str "abc" := by decide
  have b1 : (receiveAll upsertOnJoin initial missingIdTraffic).otherPlayers.map Prod.fst
      = ["undefined"] := by decide
  have b2 : (receiveAll upsertOnJoin initial missingIdTraffic).localPlayerId
      = IdVal.str "undefined" := by decide
  exact ⟨⟨a1, a2, find _ _ a1 a2⟩, ⟨b1, b2, find _ _ b1 b2⟩⟩

/-- C7, amended.  With peer registration as the spec describes it: from an empty
registry, with the local id unset or not, after every finite sequence of
inbound messages and close events in which each `initialState` carries a
non-empty string `yourId` and each listed or joining player has a string `id`,
`otherPlayers` has no entry whose key is the local id. -/
theorem C7_registry_excludes_local_id (c0 : Client)
    (hreg : c0.otherPlayers = []) (es : List NetEvent) (hwf : ∀ ev ∈ es, ev.idsWellFormed) :
    ∀ e ∈ (receiveAll upsertOnJoin c0 es).otherPlayers,
      IdVal.str e.1 ≠ (receiveAll upsertOnJoin c0 es).localPlayerId := by
  refine receiveAll_inv es c0 hwf (fun _ => hreg) (fun e he => ?_)
  rw [hreg] at he
  exact absurd he (List.not_mem_nil e)

/-- Witness for C7: from `initial`, the events of `sampleTraffic` register "p1"
and "p2" beside the local id "me", and neither key is the local id. -/
theorem C7_registry_excludes_local_id_witness :
    (receiveAll upsertOnJoin initial sampleTraffic).otherPlayers.map Prod.fst
      = ["p1", "p2"] ∧
    (receiveAll upsertOnJoin initial sampleTraffic).localPlayerId = IdVal.str "me" ∧
    ∀ e ∈ (receiveAll upsertOnJoin initial sampleTraffic).otherPlayers,
      IdVal.str e.1 ≠ (receiveAll upsertOnJoin initial sampleTraffic).localPlayerId :=
  ⟨by decide, by decide,
   C7_registry_excludes_local_id initial rfl sampleTraffic
     (by
       intro ev hev
       simp only [sampleTraffic, List.mem_cons, List.mem_singleton, List.not_mem_nil,
         or_false] at hev
       rcases hev with h | h | h | h | h <;> subst h
       · trivial
       · exact ⟨"p1", rfl⟩
       · trivial
       · exact ⟨"me", rfl⟩
       · refine ⟨rfl, fun p hp => ?_⟩
         simp only [List.mem_cons, List.mem_singleton, List.not_mem_nil, or_false] at hp
         rcases hp with h | h | h <;> subst h
         · exact ⟨"me", rfl⟩
         · exact ⟨"p1", rfl⟩
         · exact ⟨"p2", rfl⟩)⟩

/-- C8 on the code: in the state `connected`, after `playerJoined` for "p1" at
(1,1,1) and then `updateState` for "p1" with position (2,1,1) and
animationState "Walk", the registry is still empty and has no entry for "p1". -/
theorem C8_join_then_update_leaves_no_entry :
    (onMessage updateP1 (onMessage joinP1 connected)).otherPlayers = [] ∧
    hasPlayer (onMessage updateP1 (onMessage joinP1 connected)) (IdVal.str "p1") = false := by
  have h : (onMessage updateP1 (onMessage joinP1 connected)).otherPlayers = [] :=
    onMessage_registry_empty _ _ (onMessage_registry_empty _ _ rfl)
  exact ⟨h, by simp [hasPlayer, hasEntry, h, IdVal.toKey, inheritedNames]⟩

theorem yourId_ignored (i : IdVal) (c : Client) (h : c.localPlayerId.truthy = true) :
    onMessage (Message.yourId i) c = c := by
  simp [onMessage, h]

theorem receiveYourIds_ignored (ids : List IdVal) (c : Client)
    (h : c.localPlayerId.truthy = true) : receiveYourIds ids c = c := by
  induction ids with
  | nil => rfl
  | cons i ids ih =>
    show receiveYourIds ids (onMessage (Message.yourId i) c) = c
    rw [yourId_ignored i c h]
    exact ih

/-- C9, as stated, fails: from `initial`, a `yourId` carrying the empty string
followed by a `yourId` carrying "abc" leaves `localPlayerId` at "abc", not at
the id of the first message. -/
theorem C9_yourId_first_only_counterexample :
    (receiveYourIds [IdVal.str "", IdVal.str "abc"] initial).localPlayerId
        = IdVal.str "abc" ∧
    (receiveYourIds [IdVal.str "", IdVal.str "abc"] initial).localPlayerId
        ≠ IdVal.str "" := by
  constructor
  · simp [receiveYourIds, onMessage, initial, IdVal.truthy]
  · simp [receiveYourIds, onMessage, initial, IdVal.truthy]

/-- C9, amended.  Starting with `localPlayerId` unset, for every sequence of
`yourId` messages whose first id is a non-empty string, `localPlayerId` after
the whole sequence is the first id, and every later `yourId` message leaves the
client unchanged. -/
theorem C9_yourId_first_nonempty (c : Client) (hc : c.localPlayerId = IdVal.null)
    (first : String) (hne : first ≠ "") (rest : List IdVal) :
    (receiveYourIds (IdVal.str first :: rest) c).localPlayerId = IdVal.str first ∧
    ∀ (pre : List IdVal) (i : IdVal),
      receiveYourIds (IdVal.str first :: (pre ++ [i])) c
        = receiveYourIds (IdVal.str first :: pre) c := by
  have h1 : onMessage (Message.yourId (IdVal.str first)) c
      = { c with localPlayerId := IdVal.str first } := by
    simp [onMessage, hc, IdVal.truthy]
  have ht : (onMessage (Message.yourId (IdVal.str first)) c).localPlayerId.truthy = true := by
    rw [h1]
    simp [IdVal.truthy, hne]
  have hall : ∀ ids : List IdVal, receiveYourIds (IdVal.str first :: ids) c
      = onMessage (Message.yourId (IdVal.str first)) c :=
    fun ids => receiveYourIds_ignored ids _ ht
  constructor
  · rw [hall rest, h1]
  · intro pre i
    rw [hall, hall]

/-- Witness for C9: from `initial`, the ids "abc", "", "xyz". -/
theorem C9_yourId_first_nonempty_witness :
    (receiveYourIds [IdVal.str "abc", IdVal.str "", IdVal.str "xyz"] initial).localPlayerId
      = IdVal.str "abc" :=
  (C9_yourId_first_nonempty initial rfl "abc" (by decide)
    [IdVal.str "", IdVal.str "xyz"]).1

theorem lengthSq_multiplyScalar (v : Vector3) (s : ℚ) :
    (v.multiplyScalar s).lengthSq = v.lengthSq * s ^ 2 := by
  simp only [Vector3.multiplyScalar, Vector3.lengthSq]
  ring

/-- No rational has square one half. -/
theorem one_sub_two_mul_sq_ne_zero (s : ℚ) : 1 - 2 * s ^ 2 ≠ 0 := by
  intro h
  have h2 : (2 * s) ^ 2 = 2 := by linear_combination (-2 : ℚ) * h
  have h3 : (((2 * s : ℚ) : ℝ)) ^ 2 = 2 := by exact_mod_cast h2
  apply irrational_sqrt_two
  refine ⟨|2 * s|, ?_⟩
  rw [Rat.cast_abs, ← Real.sqrt_sq_eq_abs, h3]

/-- Rotating by the yaw quaternion scales the horizontal part of a vector by
`(1 - 2 s²)² + 4 s² c²`, with `s` and `c` the values returned for the sine and
the cosine; this factor is positive for all rational `s` and `c`, so a
non-zero vector stays non-zero whether or not the quaternion has unit length. -/
theorem lengthSq_applyQuaternion_yaw_pos (M : MathFns) (v : Vector3) (yaw : ℚ)
    (hv : 0 < v.lengthSq) :
    0 < (v.applyQuaternion (quaternionFromYaw M yaw)).lengthSq := by
  have hk : 0 < (1 - 2 * M.sin (yaw / 2) ^ 2) ^ 2 :=
    lt_of_le_of_ne (sq_nonneg _) (Ne.symm (pow_ne_zero 2 (one_sub_two_mul_sq_ne_zero _)))
  have hform : (v.applyQuaternion (quaternionFromYaw M yaw)).lengthSq
      = v.y ^ 2 + (v.x ^ 2 + v.z ^ 2) *
          ((1 - 2 * M.sin (yaw / 2) ^ 2) ^ 2
            + 4 * M.sin (yaw / 2) ^ 2 * M.cos (yaw / 2) ^ 2) := by
    simp only [Vector3.applyQuaternion, quaternionFromYaw, Vector3.lengthSq]
    ring
  have hfac : 0 < (1 - 2 * M.sin (yaw / 2) ^ 2) ^ 2
      + 4 * M.sin (yaw / 2) ^ 2 * M.cos (yaw / 2) ^ 2 := by positivity
  rw [hform]
  unfold Vector3.lengthSq at hv
  by_cases hy : v.y = 0
  · have hxz : 0 < v.x ^ 2 + v.z ^ 2 := by
      rw [hy] at hv
      nlinarith
    have := mul_pos hxz hfac
    rw [hy]
    nlinarith
  · have hy2 : 0 < v.y ^ 2 := by positivity
    have hxz : 0 ≤ v.x ^ 2 + v.z ^ 2 := by positivity
    have := mul_nonneg hxz (le_of_lt hfac)
    linarith

theorem inputDirection_lengthSq_pos (c : Client) :
    0 < (inputDirection c).lengthSq ↔
      (c.moveForward ≠ c.moveBackward ∨ c.moveLeft ≠ c.moveRight) := by
  unfold inputDirection Vector3.lengthSq
  cases c.moveForward <;> cases c.moveBackward <;> cases c.moveLeft <;>
    cases c.moveRight <;> norm_num

theorem movedDirection_length_pos (M : MathFns) (c : Client)
    (hsqrt : ∀ q : ℚ, 0 < M.sqrt q ↔ 0 < q) :
    0 < (movedDirection M c).length M ↔
      (c.moveForward ≠ c.moveBackward ∨ c.moveLeft ≠ c.moveRight) := by
  rw [← inputDirection_lengthSq_pos]
  unfold movedDirection
  simp only []
  by_cases h : 0 < (inputDirection c).length M
  · have hl : 0 < (inputDirection c).lengthSq := (hsqrt _).mp h
    have hne : (inputDirection c).length M ≠ 0 := ne_of_gt h
    have hspeed : (0 : ℚ) < (if c.isRunning = true then RUN_SPEED else WALK_SPEED) ^ 2 := by
      split_ifs <;> norm_num [RUN_SPEED, WALK_SPEED]
    rw [if_pos h]
    constructor
    · intro _
      exact hl
    · intro _
      unfold Vector3.length
      rw [hsqrt, lengthSq_multiplyScalar]
      have hinv : (0 : ℚ) < (1 / (inputDirection c).length M) ^ 2 := by positivity
      have hnorm : 0 < ((inputDirection c).normalize M).lengthSq := by
        unfold Vector3.normalize
        rw [if_neg hne, lengthSq_multiplyScalar]
        exact mul_pos hl hinv
      exact mul_pos (lengthSq_applyQuaternion_yaw_pos M _ _ hnorm) hspeed
  · rw [if_neg h]
    unfold Vector3.length at h ⊢
    rw [hsqrt] at h ⊢

theorem applyJump_animation (c : Client) :
    (applyJump c).isRunning = c.isRunning ∧
    (applyJump c).currentActionName = c.currentActionName ∧
    (applyJump c).actions = c.actions := by
  unfold applyJump
  simp only []
  split_ifs <;> simp

theorem update_ground_action (M : MathFns) (delta : ℚ) (c : Client)
    (hsqrt : ∀ q : ℚ, 0 < M.sqrt q ↔ 0 < q)
    (hj : (updatePlayerMovementAndAnimation M delta c).isJumping = false)
    (hy : ¬ (updatePlayerMovementAndAnimation M delta c).position.y > GROUND_HEIGHT)
    (name : String)
    (hname : name =
      if c.moveForward ≠ c.moveBackward ∨ c.moveLeft ≠ c.moveRight then
        (if c.isRunning = true then "Run" else "Walk")
      else "Idle") :
    (name ∈ c.actions →
      (updatePlayerMovementAndAnimation M delta c).currentActionName = name) ∧
    (name ∉ c.actions →
      (updatePlayerMovementAndAnimation M delta c).currentActionName
        = c.currentActionName) := by
  obtain ⟨ap, aj, -, -⟩ :=
    applyAnimation_motion M (movedDirection M c) (applyJump (applyMovement M c))
  obtain ⟨jr, jc, ja⟩ := applyJump_animation (applyMovement M c)
  obtain ⟨-, -, -, mr, mc, ma⟩ := applyMovement_motion M c
  unfold updatePlayerMovementAndAnimation at hj hy ⊢
  rw [aj] at hj
  rw [ap] at hy
  have hnew : newActionName M (movedDirection M c) (applyJump (applyMovement M c))
      = name := by
    unfold newActionName
    rw [if_neg (by simp [hj, hy]), jr, mr, hname]
    by_cases hi : c.moveForward ≠ c.moveBackward ∨ c.moveLeft ≠ c.moveRight
    · rw [if_pos ((movedDirection_length_pos M c hsqrt).mpr hi), if_pos hi]
    · rw [if_neg (fun h => hi ((movedDirection_length_pos M c hsqrt).mp h)),
        if_neg hi]
  unfold applyAnimation
  simp only [hnew, jc, mc, ja, ma]
  constructor
  · intro hin
    by_cases hc : c.currentActionName = name
    · rw [if_neg (by simp [hc])]
      simpa [jc, mc] using hc
    · rw [if_pos ⟨hc, hin⟩]
  · intro hout
    rw [if_neg (fun h => hout h.2)]
    simp [jc, mc]

/-- C10.  For an update that ends not airborne (`isJumping` false and
`position.y` not above `GROUND_HEIGHT`), with `Math.sqrt` positive exactly on
positive arguments and any yaw: when the horizontal intent is non-zero and
`isRunning`, `currentActionName` becomes "Run" if that action is available;
when it is non-zero and not `isRunning`, "Walk" if available; when it is zero,
"Idle" if available; and whenever the action so selected is not available,
`currentActionName` is left unchanged. -/
theorem C10_ground_animation_selection (M : MathFns) (delta : ℚ) (c : Client)
    (hsqrt : ∀ q : ℚ, 0 < M.sqrt q ↔ 0 < q)
    (hj : (updatePlayerMovementAndAnimation M delta c).isJumping = false)
    (hy : ¬ (updatePlayerMovementAndAnimation M delta c).position.y > GROUND_HEIGHT) :
    ((c.moveForward ≠ c.moveBackward ∨ c.moveLeft ≠ c.moveRight) →
      c.isRunning = true →
      ("Run" ∈ c.actions →
        (updatePlayerMovementAndAnimation M delta c).currentActionName = "Run") ∧
      ("Run" ∉ c.actions →
        (updatePlayerMovementAndAnimation M delta c).currentActionName
          = c.currentActionName)) ∧
    ((c.moveForward ≠ c.moveBackward ∨ c.moveLeft ≠ c.moveRight) →
      c.isRunning = false →
      ("Walk" ∈ c.actions →
        (updatePlayerMovementAndAnimation M delta c).currentActionName = "Walk") ∧
      ("Walk" ∉ c.actions →
        (updatePlayerMovementAndAnimation M delta c).currentActionName
          = c.currentActionName)) ∧
    ((c.moveForward = c.moveBackward ∧ c.moveLeft = c.moveRight) →
      ("Idle" ∈ c.actions →
        (updatePlayerMovementAndAnimation M delta c).currentActionName = "Idle") ∧
      ("Idle" ∉ c.actions →
        (updatePlayerMovementAndAnimation M delta c).currentActionName
          = c.currentActionName)) := by
  refine ⟨fun hi hr => ?_, fun hi hr => ?_, fun hi => ?_⟩
  · exact update_ground_action M delta c hsqrt hj hy "Run" (by simp [hi, hr])
  · exact update_ground_action M delta c hsqrt hj hy "Walk" (by simp [hi, hr])
  · exact update_ground_action M delta c hsqrt hj hy "Idle" (by simp [hi.1, hi.2])

theorem update_on_ground (M : MathFns) (delta : ℚ) (c : Client)
    (hj : c.isJumping = false) (hy : c.position.y = GROUND_HEIGHT) :
    (updatePlayerMovementAndAnimation M delta c).isJumping = false ∧
    (updatePlayerMovementAndAnimation M delta c).position.y = GROUND_HEIGHT := by
  obtain ⟨ap, aj, -, -⟩ :=
    applyAnimation_motion M (movedDirection M c) (applyJump (applyMovement M c))
  have mj := (applyMovement_motion M c).1
  have my := applyMovement_y M c
  have hstay : applyJump (applyMovement M c) = applyMovement M c := by
    unfold applyJump
    rw [if_neg (by simp [mj, hj]), if_neg (by rw [my, hy]; exact lt_irrefl _)]
  unfold updatePlayerMovementAndAnimation
  rw [ap, aj, hstay, mj, my]
  exact ⟨hj, hy⟩

/-- Witness for C10: the player turned to yaw 1, with the sine and cosine of
1/2 as rounded values that are not of unit length, and the forward and run keys
held; an update on the ground switches `currentActionName` from "Idle" to
"Run". -/
theorem C10_ground_animation_selection_witness :
    (updatePlayerMovementAndAnimation roundedMath 0 turnedRunning).currentActionName
      = "Run" :=
  ((C10_ground_animation_selection roundedMath 0 turnedRunning
      (fun _ => Iff.rfl)
      (update_on_ground roundedMath 0 turnedRunning rfl rfl).1
      (by
        rw [(update_on_ground roundedMath 0 turnedRunning rfl rfl).2]
        exact lt_irrefl _)).1
    (Or.inl (by decide)) rfl).1 (by decide)

theorem applyJump_fly_flags (c : Client)
    (hf : GROUND_HEIGHT < c.position.y + c.verticalVelocity) :
    (applyJump c).isJumping = c.isJumping ∧ (applyJump c).isGrounded = c.isGrounded := by
  have hn : ¬ c.position.y + c.verticalVelocity ≤ GROUND_HEIGHT := not_le.mpr hf
  unfold applyJump
  simp only []
  split_ifs with h1 h2
  · simp
  · simp
  · exact ⟨rfl, rfl⟩

theorem update_fly (M : MathFns) (delta : ℚ) (c : Client)
    (hair : c.isJumping = true ∨ c.position.y > GROUND_HEIGHT)
    (hf : GROUND_HEIGHT < c.position.y + c.verticalVelocity) :
    (updatePlayerMovementAndAnimation M delta c).position.y
      = c.position.y + c.verticalVelocity ∧
    (updatePlayerMovementAndAnimation M delta c).verticalVelocity
      = c.verticalVelocity + GRAVITY ∧
    (updatePlayerMovementAndAnimation M delta c).isJumping = c.isJumping ∧
    (updatePlayerMovementAndAnimation M delta c).isGrounded = c.isGrounded := by
  obtain ⟨hj, hv, hg, -, -, -⟩ := applyMovement_motion M c
  have hy := applyMovement_y M c
  have hair1 : (applyMovement M c).isJumping = true ∨
      (applyMovement M c).position.y > GROUND_HEIGHT := by rw [hj, hy]; exact hair
  have hf1 : GROUND_HEIGHT <
      (applyMovement M c).position.y + (applyMovement M c).verticalVelocity := by
    rw [hy, hv]; exact hf
  obtain ⟨ap, aj, av, ag⟩ :=
    applyAnimation_motion M (movedDirection M c) (applyJump (applyMovement M c))
  obtain ⟨f1, f2⟩ := applyJump_fly _ hair1 hf1
  obtain ⟨f3, f4⟩ := applyJump_fly_flags _ hf1
  unfold updatePlayerMovementAndAnimation
  rw [ap, aj, av, ag, f1, f2, f3, f4, hy, hv, hj, hg]
  exact ⟨rfl, rfl, rfl, rfl⟩

theorem update_land (M : MathFns) (delta : ℚ) (c : Client)
    (hair : c.isJumping = true ∨ c.position.y > GROUND_HEIGHT)
    (hl : c.position.y + c.verticalVelocity ≤ GROUND_HEIGHT) :
    (updatePlayerMovementAndAnimation M delta c).position.y = GROUND_HEIGHT ∧
    (updatePlayerMovementAndAnimation M delta c).verticalVelocity = 0 ∧
    (updatePlayerMovementAndAnimation M delta c).isGrounded = true ∧
    (updatePlayerMovementAndAnimation M delta c).isJumping = false := by
  obtain ⟨hj, hv, -, -, -, -⟩ := applyMovement_motion M c
  have hy := applyMovement_y M c
  have hair1 : (applyMovement M c).isJumping = true ∨
      (applyMovement M c).position.y > GROUND_HEIGHT := by rw [hj, hy]; exact hair
  obtain ⟨ap, aj, av, ag⟩ :=
    applyAnimation_motion M (movedDirection M c) (applyJump (applyMovement M c))
  unfold updatePlayerMovementAndAnimation
  rw [ap, aj, av, ag]
  exact applyJump_land _ hair1 (by rw [hy, hv]; exact hl)

/-- The state of a jump `k` ticks after the Space press, `k` at most 40, is
carried one tick further. -/
theorem tick_in_flight (M : MathFns) (c : Client) (i : TickInput) (k : ℕ) (hk : k < 40)
    (hj : c.isJumping = true) (hg : c.isGrounded = false)
    (hv : c.verticalVelocity = 3 / 10 - 3 / 200 * (k : ℚ))
    (hy : c.position.y = 1 + 3 / 10 * (k : ℚ) - 3 / 400 * (k : ℚ) * ((k : ℚ) - 1)) :
    (tick M c i).isJumping = true ∧ (tick M c i).isGrounded = false ∧
    (tick M c i).verticalVelocity = 3 / 10 - 3 / 200 * ((k + 1 : ℕ) : ℚ) ∧
    (tick M c i).position.y
      = 1 + 3 / 10 * ((k + 1 : ℕ) : ℚ)
          - 3 / 400 * ((k + 1 : ℕ) : ℚ) * (((k + 1 : ℕ) : ℚ) - 1) := by
  have hkq : (k : ℚ) < 40 := by exact_mod_cast hk
  have hk0 : (0 : ℚ) ≤ (k : ℚ) := Nat.cast_nonneg k
  obtain ⟨f1, f2, f3, f4⟩ := update_fly M i.delta
    (step M c (Event.setInput i.forward i.backward i.left i.right i.running i.yaw))
    (Or.inl hj)
    (by
      show GROUND_HEIGHT < c.position.y + c.verticalVelocity
      rw [hy, hv]
      unfold GROUND_HEIGHT
      nlinarith)
  refine ⟨f3.trans hj, f4.trans hg, f2.trans ?_, f1.trans ?_⟩
  · show c.verticalVelocity + GRAVITY = _
    rw [hv]
    unfold GRAVITY
    push_cast
    ring
  · show c.position.y + c.verticalVelocity = _
    rw [hy, hv]
    push_cast
    ring

theorem ticks_in_flight (M : MathFns) (inputs : List TickInput) (k : ℕ) (c : Client)
    (hk : k + inputs.length ≤ 40)
    (hj : c.isJumping = true) (hg : c.isGrounded = false)
    (hv : c.verticalVelocity = 3 / 10 - 3 / 200 * (k : ℚ))
    (hy : c.position.y = 1 + 3 / 10 * (k : ℚ) - 3 / 400 * (k : ℚ) * ((k : ℚ) - 1)) :
    (ticks M c inputs).isJumping = true ∧ (ticks M c inputs).isGrounded = false ∧
    (ticks M c inputs).verticalVelocity
      = 3 / 10 - 3 / 200 * ((k + inputs.length : ℕ) : ℚ) ∧
    (ticks M c inputs).position.y
      = 1 + 3 / 10 * ((k + inputs.length : ℕ) : ℚ)
          - 3 / 400 * ((k + inputs.length : ℕ) : ℚ)
            * (((k + inputs.length : ℕ) : ℚ) - 1) := by
  induction inputs generalizing k c with
  | nil => exact ⟨hj, hg, hv, hy⟩
  | cons i rest ih =>
    have hlen : (i :: rest).length = rest.length + 1 := rfl
    rw [hlen] at hk ⊢
    obtain ⟨t1, t2, t3, t4⟩ := tick_in_flight M c i k (by omega) hj hg hv hy
    have h := ih (k + 1) (tick M c i) (by omega) t1 t2 t3 t4
    have he : k + 1 + rest.length = k + (rest.length + 1) := by omega
    rw [he] at h
    exact h

theorem tick_lands (M : MathFns) (c : Client) (i : TickInput)
    (hj : c.isJumping = true)
    (hv : c.verticalVelocity = 3 / 10 - 3 / 200 * ((40 : ℕ) : ℚ))
    (hy : c.position.y
      = 1 + 3 / 10 * ((40 : ℕ) : ℚ) - 3 / 400 * ((40 : ℕ) : ℚ) * (((40 : ℕ) : ℚ) - 1)) :
    (tick M c i).position.y = GROUND_HEIGHT ∧ (tick M c i).verticalVelocity = 0 ∧
    (tick M c i).isGrounded = true ∧ (tick M c i).isJumping = false := by
  exact update_land M i.delta
    (step M c (Event.setInput i.forward i.backward i.left i.right i.running i.yaw))
    (Or.inl hj)
    (by
      show c.position.y + c.verticalVelocity ≤ GROUND_HEIGHT
      rw [hy, hv]
      norm_num [GROUND_HEIGHT])

theorem ticks_snoc (M : MathFns) (c : Client) (pre : List TickInput) (i : TickInput) :
    ticks M c (pre ++ [i]) = tick M (ticks M c pre) i := by
  simp [ticks, List.foldl_append]

theorem jump_height_le (n : ℕ) :
    1 + 3 / 10 * (n : ℚ) - 3 / 400 * (n : ℚ) * ((n : ℚ) - 1) ≤ 83 / 20 := by
  rcases Nat.lt_or_ge n 21 with h | h
  · have h1 : (n : ℚ) ≤ 20 := by exact_mod_cast Nat.lt_succ_iff.mp h
    nlinarith
  · have h1 : (21 : ℚ) ≤ (n : ℚ) := by exact_mod_cast h
    nlinarith

/-- C11.  Exact jump trajectory: from a grounded state with `position.y` at
`GROUND_HEIGHT`, a Space keydown followed by `n` ticks with any deltas, flags and
yaws gives, for `1 ≤ n ≤ 40`, `position.y = 1 + 0.3 n - 0.0075 n (n - 1)` with
`isGrounded = false`, never above 4.15, and exactly 4.15 at `n = 20` and
`n = 21`; the 41st tick lands with `position.y = 1`, `verticalVelocity = 0`,
`isGrounded = true` and `isJumping = false`. -/
theorem C11_jump_trajectory (M : MathFns) (now : ℤ) (c : Client)
    (hg : c.isGrounded = true) (hy : c.position.y = GROUND_HEIGHT)
    (inputs : List TickInput) :
    (1 ≤ inputs.length → inputs.length ≤ 40 →
      (ticks M (onKeyDown M "Space" now c) inputs).position.y
        = 1 + 3 / 10 * (inputs.length : ℚ)
            - 3 / 400 * (inputs.length : ℚ) * ((inputs.length : ℚ) - 1) ∧
      (ticks M (onKeyDown M "Space" now c) inputs).isGrounded = false ∧
      (ticks M (onKeyDown M "Space" now c) inputs).position.y ≤ 83 / 20) ∧
    ((inputs.length = 20 ∨ inputs.length = 21) →
      (ticks M (onKeyDown M "Space" now c) inputs).position.y = 83 / 20) ∧
    (inputs.length = 41 →
      (ticks M (onKeyDown M "Space" now c) inputs).position.y = 1 ∧
      (ticks M (onKeyDown M "Space" now c) inputs).verticalVelocity = 0 ∧
      (ticks M (onKeyDown M "Space" now c) inputs).isGrounded = true ∧
      (ticks M (onKeyDown M "Space" now c) inputs).isJumping = false) := by
  have s1 : (onKeyDown M "Space" now c).isJumping = true := by simp [onKeyDown, hg]
  have s2 : (onKeyDown M "Space" now c).isGrounded = false := by simp [onKeyDown, hg]
  have s3 : (onKeyDown M "Space" now c).verticalVelocity
      = 3 / 10 - 3 / 200 * ((0 : ℕ) : ℚ) := by
    simp [onKeyDown, hg, JUMP_FORCE]
  have s4 : (onKeyDown M "Space" now c).position.y
      = 1 + 3 / 10 * ((0 : ℕ) : ℚ) - 3 / 400 * ((0 : ℕ) : ℚ) * (((0 : ℕ) : ℚ) - 1) := by
    simp [onKeyDown, hg, hy, GROUND_HEIGHT]
  have flight : ∀ l : List TickInput, l.length ≤ 40 →
      (ticks M (onKeyDown M "Space" now c) l).isJumping = true ∧
      (ticks M (onKeyDown M "Space" now c) l).isGrounded = false ∧
      (ticks M (onKeyDown M "Space" now c) l).verticalVelocity
        = 3 / 10 - 3 / 200 * ((l.length : ℕ) : ℚ) ∧
      (ticks M (onKeyDown M "Space" now c) l).position.y
        = 1 + 3 / 10 * ((l.length : ℕ) : ℚ)
            - 3 / 400 * ((l.length : ℕ) : ℚ) * (((l.length : ℕ) : ℚ) - 1) := by
    intro l hl
    have h := ticks_in_flight M l 0 _ (by omega) s1 s2 s3 s4
    rw [Nat.zero_add] at h
    exact h
  refine ⟨fun _ h40 => ?_, fun h => ?_, fun h41 => ?_⟩
  · obtain ⟨-, f2, -, f4⟩ := flight inputs h40
    exact ⟨f4, f2, by rw [f4]; exact jump_height_le _⟩
  · obtain ⟨-, -, -, f4⟩ := flight inputs (by omega)
    rw [f4]
    rcases h with h | h <;> rw [h] <;> norm_num
  · have hne : inputs ≠ [] := by
      intro h0
      rw [h0] at h41
      exact absurd h41 (by decide)
    have hsplit := List.dropLast_append_getLast hne
    have hlen : inputs.dropLast.length = 40 := by
      rw [List.length_dropLast, h41]
    obtain ⟨f1, -, f3, f4⟩ := flight inputs.dropLast (by omega)
    rw [hlen] at f3 f4
    rw [← hsplit, ticks_snoc]
    have h := tick_lands M _ (inputs.getLast hne) f1 f3 f4
    rw [GROUND_HEIGHT] at h
    exact h

/-- Witness for C11: from `initial`, a Space press and 41 ticks with the
forward and run keys held end on the ground. -/
theorem C11_jump_trajectory_witness :
    (ticks sampleMath (onKeyDown sampleMath "Space" 0 initial)
        (List.replicate 41 heldForward)).position.y = 1 ∧
    (ticks sampleMath (onKeyDown sampleMath "Space" 0 initial)
        (List.replicate 41 heldForward)).verticalVelocity = 0 ∧
    (ticks sampleMath (onKeyDown sampleMath "Space" 0 initial)
        (List.replicate 41 heldForward)).isGrounded = true ∧
    (ticks sampleMath (onKeyDown sampleMath "Space" 0 initial)
        (List.replicate 41 heldForward)).isJumping = false :=
  (C11_jump_trajectory sampleMath 0 initial rfl rfl
    (List.replicate 41 heldForward)).2.2 (List.length_replicate 41 heldForward)

theorem update_link (M : MathFns) (delta : ℚ) (c : Client) :
    (updatePlayerMovementAndAnimation M delta c).websocket = c.websocket ∧
    (updatePlayerMovementAndAnimation M delta c).localPlayerId = c.localPlayerId ∧
    (updatePlayerMovementAndAnimation M delta c).lastSendTime = c.lastSendTime ∧
    (updatePlayerMovementAndAnimation M delta c).sent = c.sent := by
  unfold updatePlayerMovementAndAnimation applyAnimation applyJump applyMovement
  simp only []
  split_ifs <;> simp

theorem respawn_sends (M : MathFns) (now : ℤ) (c : Client)
    (ho : c.websocket = some WS_OPEN) (hi : c.localPlayerId.truthy = true)
    (hnow : SEND_RATE ≤ now) :
    respawnPlayer M now c =
      { c with
        position := RESPAWN_POSITION, lastSendTime := now,
        sent := c.sent ++
          [(now, playerState M { c with position := RESPAWN_POSITION, lastSendTime := 0 })] } := by
  exact sendPlayerState_due M now
    { c with position := RESPAWN_POSITION, lastSendTime := 0 } ho hi (by simpa using hnow)

/-- C13.  With the socket open, a truthy local id and a clock reading `now` of
at least `SEND_RATE`, `respawnPlayer` transmits exactly one `updateState`
message and sets `lastSendTime = now`, whatever `lastSendTime` was before; and
in the run `respawnRun` from `initial` a frame transmits at 1000 and the respawn
transmits at 1010, less than `SEND_RATE` later. -/
theorem C13_respawn_bypasses_limiter (M : MathFns) (now : ℤ) (c : Client) :
    (c.websocket = some WS_OPEN → c.localPlayerId.truthy = true → SEND_RATE ≤ now →
      (respawnPlayer M now c).sent = c.sent ++
        [(now, playerState M { c with position := RESPAWN_POSITION, lastSendTime := 0 })] ∧
      (playerState M { c with position := RESPAWN_POSITION, lastSendTime := 0 }).type
        = "updateState" ∧
      (respawnPlayer M now c).lastSendTime = now) ∧
    ((run M initial respawnRun).sent.map Prod.fst = [1000, 1010] ∧
      (1010 : ℤ) - 1000 < SEND_RATE) := by
  constructor
  · intro ho hi hnow
    rw [respawn_sends M now c ho hi hnow]
    exact ⟨rfl, rfl, rfl⟩
  · refine ⟨?_, by decide⟩
    have hid : onMessage (Message.yourId (IdVal.str "me")) (onOpen initial)
        = { onOpen initial with localPlayerId := IdVal.str "me" } := by
      simp [onMessage, onOpen, initial, IdVal.truthy]
    obtain ⟨u1, u2, u3, u4⟩ := update_link M (1 / 60)
      (onMessage (Message.yourId (IdVal.str "me")) (onOpen initial))
    rw [hid] at u1 u2 u3 u4
    have hframe := sendPlayerState_due M 1000
      (updatePlayerMovementAndAnimation M (1 / 60)
        (onMessage (Message.yourId (IdVal.str "me")) (onOpen initial)))
      (by rw [hid, u1]; rfl) (by rw [hid, u2]; rfl) (by rw [hid, u3]; decide)
    have f1 : (sendPlayerState M 1000
        (updatePlayerMovementAndAnimation M (1 / 60)
          (onMessage (Message.yourId (IdVal.str "me")) (onOpen initial)))).sent.map Prod.fst
        = [1000] := by
      rw [hframe, hid]
      simp only [u4]
      rfl
    have f2 : (sendPlayerState M 1000
        (updatePlayerMovementAndAnimation M (1 / 60)
          (onMessage (Message.yourId (IdVal.str "me")) (onOpen initial)))).websocket
        = some WS_OPEN := by
      rw [hframe, hid]
      exact u1
    have f3 : (sendPlayerState M 1000
        (updatePlayerMovementAndAnimation M (1 / 60)
          (onMessage (Message.yourId (IdVal.str "me")) (onOpen initial)))).localPlayerId.truthy
        = true := by
      rw [hframe, hid]
      exact (congrArg IdVal.truthy u2).trans rfl
    have hrun : run M initial respawnRun
        = respawnPlayer M 1010 (sendPlayerState M 1000
            (updatePlayerMovementAndAnimation M (1 / 60)
              (onMessage (Message.yourId (IdVal.str "me")) (onOpen initial)))) := rfl
    rw [hrun, respawn_sends M 1010 _ f2 f3 (by decide)]
    simp only [List.map_append, f1]
    rfl

/-- Witness for C13: in the state `connected` with `lastSendTime` at 990, a
respawn at clock reading 1000 transmits and sets `lastSendTime` to 1000. -/
theorem C13_respawn_bypasses_limiter_witness :
    ({ connected with lastSendTime := 990 } : Client).lastSendTime = 990 ∧
    (respawnPlayer sampleMath 1000 { connected with lastSendTime := 990 }).sent.map Prod.fst
      = [1000] ∧
    (respawnPlayer sampleMath 1000 { connected with lastSendTime := 990 }).lastSendTime
      = 1000 :=
  ⟨rfl,
   by rw [((C13_respawn_bypasses_limiter sampleMath 1000
      { connected with lastSendTime := 990 }).1 rfl rfl (by decide)).1]; rfl,
   ((C13_respawn_bypasses_limiter sampleMath 1000
      { connected with lastSendTime := 990 }).1 rfl rfl (by decide)).2.2⟩

theorem update_actions (M : MathFns) (delta : ℚ) (c : Client) :
    (updatePlayerMovementAndAnimation M delta c).actions = c.actions := by
  unfold updatePlayerMovementAndAnimation applyAnimation applyJump applyMovement
  simp only []
  split_ifs <;> simp

theorem update_air_idle (M : MathFns) (delta : ℚ) (c : Client)
    (hidle : "Idle" ∈ c.actions)
    (hair : inAir (updatePlayerMovementAndAnimation M delta c)) :
    (updatePlayerMovementAndAnimation M delta c).currentActionName = "Idle" := by
  obtain ⟨ap, aj, -, -⟩ :=
    applyAnimation_motion M (movedDirection M c) (applyJump (applyMovement M c))
  obtain ⟨-, -, ja⟩ := applyJump_animation (applyMovement M c)
  obtain ⟨-, -, -, -, -, ma⟩ := applyMovement_motion M c
  unfold inAir updatePlayerMovementAndAnimation at hair
  rw [aj, ap] at hair
  have hnew : newActionName M (movedDirection M c) (applyJump (applyMovement M c))
      = "Idle" := by
    unfold newActionName
    rw [if_pos hair]
  unfold updatePlayerMovementAndAnimation applyAnimation
  simp only [hnew, ja, ma]
  by_cases hc : (applyJump (applyMovement M c)).currentActionName = "Idle"
  · rw [if_neg (by simp [hc])]
    exact hc
  · rw [if_pos ⟨hc, hidle⟩]

theorem sendPlayerState_sent (M : MathFns) (now : ℤ) (c : Client) :
    (sendPlayerState M now c).actions = c.actions ∧
    ∀ p ∈ (sendPlayerState M now c).sent,
      p ∈ c.sent ∨ p.2.animationState = c.currentActionName := by
  unfold sendPlayerState
  split_ifs
  · exact ⟨rfl, fun p hp => Or.inl hp⟩
  · exact ⟨rfl, fun p hp => Or.inl hp⟩
  · refine ⟨rfl, fun p hp => ?_⟩
    rcases List.mem_append.mp hp with h | h
    · exact Or.inl h
    · right
      rw [List.mem_singleton.mp h]
      rfl

theorem onMessage_animation (m : Message) (c : Client) :
    (onMessage m c).position = c.position ∧ (onMessage m c).isJumping = c.isJumping ∧
    (onMessage m c).currentActionName = c.currentActionName ∧
    (onMessage m c).actions = c.actions ∧ (onMessage m c).sent = c.sent := by
  cases m with
  | yourId id => simp only [onMessage]; split_ifs <;> exact ⟨rfl, rfl, rfl, rfl, rfl⟩
  | initialState y ps =>
    simp only [onMessage, initialState_fold_eq]
    split_ifs <;> exact ⟨rfl, rfl, rfl, rfl, rfl⟩
  | playerJoined p => simp only [onMessage]; split_ifs <;> exact ⟨rfl, rfl, rfl, rfl, rfl⟩
  | playerLeft id => simp only [onMessage]; split_ifs <;> exact ⟨rfl, rfl, rfl, rfl, rfl⟩
  | updateState p => simp only [onMessage]; split_ifs <;> exact ⟨rfl, rfl, rfl, rfl, rfl⟩
  | unknown t id => exact ⟨rfl, rfl, rfl, rfl, rfl⟩

theorem onKeyUp_animation (code : String) (c : Client) :
    (onKeyUp code c).position = c.position ∧ (onKeyUp code c).isJumping = c.isJumping ∧
    (onKeyUp code c).currentActionName = c.currentActionName ∧
    (onKeyUp code c).actions = c.actions ∧ (onKeyUp code c).sent = c.sent := by
  unfold onKeyUp
  split_ifs <;> exact ⟨rfl, rfl, rfl, rfl, rfl⟩

/-- A handler that keeps the action table and the current action name, cannot
make the player airborne, and only sends the current action name, keeps the
property that an airborne player has the action name "Idle". -/
theorem air_idle_kept (c d : Client) (hidle : "Idle" ∈ c.actions)
    (hinv : inAir c → c.currentActionName = "Idle")
    (ha : d.actions = c.actions) (hc : d.currentActionName = c.currentActionName)
    (hair : inAir d → inAir c)
    (hs : ∀ p ∈ d.sent, p ∈ c.sent ∨ p.2.animationState = c.currentActionName) :
    "Idle" ∈ d.actions ∧ (inAir d → d.currentActionName = "Idle") ∧
    (inAir d → ∀ p ∈ d.sent, p ∈ c.sent ∨ p.2.animationState = "Idle") := by
  refine ⟨by rw [ha]; exact hidle, fun h => hc.trans (hinv (hair h)), fun h p hp => ?_⟩
  rcases hs p hp with h1 | h1
  · exact Or.inl h1
  · exact Or.inr (h1.trans (hinv (hair h)))

theorem respawn_air_idle (M : MathFns) (now : ℤ) (c : Client)
    (hidle : "Idle" ∈ c.actions) (hinv : inAir c → c.currentActionName = "Idle") :
    "Idle" ∈ (respawnPlayer M now c).actions ∧
    (inAir (respawnPlayer M now c) → (respawnPlayer M now c).currentActionName = "Idle") ∧
    (inAir (respawnPlayer M now c) →
      ∀ p ∈ (respawnPlayer M now c).sent, p ∈ c.sent ∨ p.2.animationState = "Idle") := by
  obtain ⟨hp, hj, -, -, hc⟩ :=
    sendPlayerState_motion M now { c with position := RESPAWN_POSITION, lastSendTime := 0 }
  obtain ⟨ha, hs⟩ :=
    sendPlayerState_sent M now { c with position := RESPAWN_POSITION, lastSendTime := 0 }
  refine air_idle_kept c _ hidle hinv ha hc (fun h => ?_) hs
  unfold inAir respawnPlayer at h
  rw [hj, hp] at h
  rcases h with h | h
  · exact Or.inl h
  · exact absurd h (lt_irrefl _)

theorem animate_air_idle (M : MathFns) (delta : ℚ) (now : ℤ) (c : Client)
    (hidle : "Idle" ∈ c.actions) :
    "Idle" ∈ (animate M delta now c).actions ∧
    (inAir (animate M delta now c) → (animate M delta now c).currentActionName = "Idle") ∧
    (inAir (animate M delta now c) →
      ∀ p ∈ (animate M delta now c).sent, p ∈ c.sent ∨ p.2.animationState = "Idle") := by
  obtain ⟨sp, sj, -, -, sc⟩ :=
    sendPlayerState_motion M now (updatePlayerMovementAndAnimation M delta c)
  obtain ⟨sa, ss⟩ :=
    sendPlayerState_sent M now (updatePlayerMovementAndAnimation M delta c)
  have hair : inAir (animate M delta now c) →
      inAir (updatePlayerMovementAndAnimation M delta c) := by
    intro h
    unfold inAir animate at h
    rw [sj, sp] at h
    exact h
  refine ⟨?_, fun h => ?_, fun h p hp => ?_⟩
  · unfold animate
    rw [sa, update_actions]
    exact hidle
  · exact sc.trans (update_air_idle M delta c hidle (hair h))
  · rcases ss p hp with h1 | h1
    · rw [(update_link M delta c).2.2.2] at h1
      exact Or.inl h1
    · exact Or.inr (h1.trans (update_air_idle M delta c hidle (hair h)))

theorem onKeyDown_not_space (M : MathFns) (code : String) (now : ℤ) (c : Client)
    (hcode : code ≠ "Space") :
    onKeyDown M code now c = respawnPlayer M now c ∨
    ((onKeyDown M code now c).actions = c.actions ∧
      (onKeyDown M code now c).currentActionName = c.currentActionName ∧
      (onKeyDown M code now c).position = c.position ∧
      (onKeyDown M code now c).isJumping = c.isJumping ∧
      (onKeyDown M code now c).sent = c.sent) := by
  unfold onKeyDown
  split_ifs
  · exact Or.inr ⟨rfl, rfl, rfl, rfl, rfl⟩
  · exact Or.inr ⟨rfl, rfl, rfl, rfl, rfl⟩
  · exact Or.inr ⟨rfl, rfl, rfl, rfl, rfl⟩
  · exact Or.inr ⟨rfl, rfl, rfl, rfl, rfl⟩
  · exact Or.inr ⟨rfl, rfl, rfl, rfl, rfl⟩
  · exact Or.inl rfl
  · exact Or.inr ⟨rfl, rfl, rfl, rfl, rfl⟩
  · exact Or.inr ⟨rfl, rfl, rfl, rfl, rfl⟩

theorem step_air_idle (M : MathFns) (c : Client) (e : Event)
    (hidle : "Idle" ∈ c.actions) (hinv : inAir c → c.currentActionName = "Idle")
    (hns : ∀ now : ℤ, e ≠ Event.keyDown "Space" now) :
    "Idle" ∈ (step M c e).actions ∧
    (inAir (step M c e) → (step M c e).currentActionName = "Idle") ∧
    (inAir (step M c e) →
      ∀ p ∈ (step M c e).sent, p ∈ c.sent ∨ p.2.animationState = "Idle") := by
  have still : ∀ d : Client, d.actions = c.actions →
      d.currentActionName = c.currentActionName → d.position = c.position →
      d.isJumping = c.isJumping → d.sent = c.sent →
      "Idle" ∈ d.actions ∧ (inAir d → d.currentActionName = "Idle") ∧
      (inAir d → ∀ p ∈ d.sent, p ∈ c.sent ∨ p.2.animationState = "Idle") := by
    intro d ha hc hp hj hs
    refine air_idle_kept c d hidle hinv ha hc (fun h => ?_) (fun p hp1 => Or.inl (hs ▸ hp1))
    unfold inAir at h ⊢
    rw [hj, hp] at h
    exact h
  cases e with
  | setInput f b l r rn yaw => exact still _ rfl rfl rfl rfl rfl
  | update delta =>
    have ha := update_actions M delta c
    refine ⟨by rw [show (step M c (Event.update delta)).actions = c.actions from ha]; exact hidle,
      fun h => update_air_idle M delta c hidle h, fun _ p hp => Or.inl ?_⟩
    rw [show (step M c (Event.update delta)).sent = c.sent from (update_link M delta c).2.2.2] at hp
    exact hp
  | frame delta now => exact animate_air_idle M delta now c hidle
  | keyDown code now =>
    have hcode : code ≠ "Space" := fun h => hns now (by rw [h])
    rcases onKeyDown_not_space M code now c hcode with h | ⟨h1, h2, h3, h4, h5⟩
    · show "Idle" ∈ (onKeyDown M code now c).actions ∧
        (inAir (onKeyDown M code now c) → (onKeyDown M code now c).currentActionName = "Idle") ∧
        (inAir (onKeyDown M code now c) →
          ∀ p ∈ (onKeyDown M code now c).sent, p ∈ c.sent ∨ p.2.animationState = "Idle")
      rw [h]
      exact respawn_air_idle M now c hidle hinv
    · exact still _ h1 h2 h3 h4 h5
  | keyUp code =>
    obtain ⟨h1, h2, h3, h4, h5⟩ := onKeyUp_animation code c
    exact still _ h4 h3 h1 h2 h5
  | respawn now => exact respawn_air_idle M now c hidle hinv
  | send now =>
    obtain ⟨sp, sj, -, -, sc⟩ := sendPlayerState_motion M now c
    obtain ⟨sa, ss⟩ := sendPlayerState_sent M now c
    refine air_idle_kept c _ hidle hinv sa sc (fun h => ?_) ss
    unfold inAir at h ⊢
    rw [show (step M c (Event.send now)).isJumping = _ from sj,
      show (step M c (Event.send now)).position = _ from sp] at h
    exact h
  | message m =>
    obtain ⟨h1, h2, h3, h4, h5⟩ := onMessage_animation m c
    exact still _ h4 h3 h1 h2 h5
  | connect => exact still _ rfl rfl rfl rfl rfl
  | opened => exact still _ rfl rfl rfl rfl rfl
  | closed => exact still _ rfl rfl rfl rfl rfl

theorem update_on_ground_grounded (M : MathFns) (delta : ℚ) (c : Client)
    (hj : c.isJumping = false) (hy : c.position.y = GROUND_HEIGHT) :
    (updatePlayerMovementAndAnimation M delta c).isGrounded = c.isGrounded := by
  obtain ⟨-, -, -, ag⟩ :=
    applyAnimation_motion M (movedDirection M c) (applyJump (applyMovement M c))
  obtain ⟨mj, -, mg, -, -, -⟩ := applyMovement_motion M c
  have my := applyMovement_y M c
  have hstay : applyJump (applyMovement M c) = applyMovement M c := by
    unfold applyJump
    rw [if_neg (by simp [mj, hj]), if_neg (by rw [my, hy]; exact lt_irrefl _)]
  unfold updatePlayerMovementAndAnimation
  rw [ag, hstay, mg]

theorem space_when_grounded (M : MathFns) (now : ℤ) (c : Client)
    (hg : c.isGrounded = true) :
    onKeyDown M "Space" now c =
      { c with isJumping := true, verticalVelocity := JUMP_FORCE, isGrounded := false,
               isAudioInitialized := true } := by
  simp [onKeyDown, hg]

theorem runThenJump_state :
    (run sampleMath initial runThenJump).isJumping = true ∧
    "Idle" ∈ (run sampleMath initial runThenJump).actions ∧
    (run sampleMath initial runThenJump).sent = [] ∧
    (run sampleMath initial runThenJump).currentActionName = "Run" ∧
    (run sampleMath initial runThenJump).websocket = some WS_OPEN ∧
    (run sampleMath initial runThenJump).localPlayerId = IdVal.str "me" := by
  have h2 : run sampleMath initial
      [Event.opened, Event.message (Message.yourId (IdVal.str "me")),
       Event.setInput true false false false true 0] = runningOnline := by
    simp [run, step, onOpen, onMessage, initial, runningOnline, IdVal.truthy]
  have hrun : run sampleMath initial runThenJump
      = onKeyDown sampleMath "Space" 0 (updatePlayerMovementAndAnimation sampleMath (1 / 60)
          (run sampleMath initial
            [Event.opened, Event.message (Message.yourId (IdVal.str "me")),
             Event.setInput true false false false true 0])) := rfl
  rw [hrun, h2]
  obtain ⟨g1, g2⟩ := update_on_ground sampleMath (1 / 60) runningOnline rfl rfl
  have hg : (updatePlayerMovementAndAnimation sampleMath (1 / 60) runningOnline).isGrounded
      = true := update_on_ground_grounded sampleMath (1 / 60) runningOnline rfl rfl
  have hact : (updatePlayerMovementAndAnimation sampleMath (1 / 60) runningOnline).actions
      = ["Idle", "Walk", "Run"] := update_actions sampleMath (1 / 60) runningOnline
  obtain ⟨u1, u2, -, u4⟩ := update_link sampleMath (1 / 60) runningOnline
  have hcur := (update_ground_action sampleMath (1 / 60) runningOnline
    (fun _ => Iff.rfl) g1
    (by rw [g2]; exact lt_irrefl _) "Run" (by simp [runningOnline, initial])).1
    (by simp [runningOnline, initial])
  rw [space_when_grounded sampleMath 0 _ hg]
  refine ⟨rfl, ?_, u4, hcur, u1, u2⟩
  show "Idle" ∈ (updatePlayerMovementAndAnimation sampleMath (1 / 60) runningOnline).actions
  rw [hact]
  decide

/-- C12, as stated, fails: in the run `runThenJump` from `initial` the player
runs on the ground (current action "Run"), then Space starts a jump; a respawn
at clock reading 1000, before any further tick, is made while airborne with an
"Idle" action available and transmits the one message of the run, whose
`animationState` is "Run". -/
theorem C12_airborne_messages_idle_counterexample :
    inAir (run sampleMath initial runThenJump) ∧
    "Idle" ∈ (run sampleMath initial runThenJump).actions ∧
    (run sampleMath initial runThenJump).sent = [] ∧
    inAir (respawnPlayer sampleMath 1000 (run sampleMath initial runThenJump)) ∧
    (respawnPlayer sampleMath 1000 (run sampleMath initial runThenJump)).sent.map
        (fun p => p.2.animationState) = ["Run"] := by
  obtain ⟨hj, hidle, hsent, hcur, hws, hid⟩ := runThenJump_state
  have hr := respawn_sends sampleMath 1000 (run sampleMath initial runThenJump) hws
    (by rw [hid]; rfl) (by decide)
  refine ⟨Or.inl hj, hidle, hsent, ?_, ?_⟩
  · rw [hr]
    exact Or.inl hj
  · rw [hr]
    simp [hsent, playerState, hcur]

/-- C12, amended.  An update that ends airborne with an "Idle" action available
leaves `currentActionName` at "Idle", whatever the flags and the previous name;
the message a frame transmits after such an update carries "Idle"; and as long
as no Space keydown intervenes, every event keeps "an airborne player has the
current action Idle" and every message transmitted while airborne carries
"Idle". -/
theorem C12_airborne_ticks_record_idle (M : MathFns) (c : Client)
    (hidle : "Idle" ∈ c.actions) :
    (∀ delta : ℚ, inAir (updatePlayerMovementAndAnimation M delta c) →
      (updatePlayerMovementAndAnimation M delta c).currentActionName = "Idle") ∧
    (∀ (delta : ℚ) (now : ℤ), inAir (animate M delta now c) →
      (animate M delta now c).currentActionName = "Idle" ∧
      ∀ p ∈ (animate M delta now c).sent, p ∈ c.sent ∨ p.2.animationState = "Idle") ∧
    (∀ e : Event, (inAir c → c.currentActionName = "Idle") →
      (∀ now : ℤ, e ≠ Event.keyDown "Space" now) →
      "Idle" ∈ (step M c e).actions ∧
      (inAir (step M c e) →
        (step M c e).currentActionName = "Idle" ∧
        ∀ p ∈ (step M c e).sent, p ∈ c.sent ∨ p.2.animationState = "Idle")) := by
  refine ⟨fun delta h => update_air_idle M delta c hidle h, fun delta now h => ?_,
    fun e hinv hns => ?_⟩
  · obtain ⟨-, h2, h3⟩ := animate_air_idle M delta now c hidle
    exact ⟨h2 h, h3 h⟩
  · obtain ⟨h1, h2, h3⟩ := step_air_idle M c e hidle hinv hns
    exact ⟨h1, fun h => ⟨h2 h, h3 h⟩⟩

/-- Witness for C12: in the state `airborneRun` (rising, forward and run keys
held, "Run" recorded) an update ends airborne and records "Idle". -/
theorem C12_airborne_ticks_record_idle_witness :
    (updatePlayerMovementAndAnimation sampleMath 0 airborneRun).currentActionName
      = "Idle" :=
  (C12_airborne_ticks_record_idle sampleMath airborneRun (by decide)).1 0
    (Or.inl ((update_fly sampleMath 0 airborneRun (Or.inl rfl)
      (by norm_num [airborneRun, initial, GROUND_HEIGHT])).2.2.1.trans rfl))

end ArtoValley
